import Mathlib

/-!
# Hamlib rotator frontend (`src/rotator.c`)

A shallow embedding of the rotator frontend: the list of opened handles
(`add_opened_rot`, `remove_opened_rot`, `foreach_opened_rot`) and the handle
operations (`rot_init`, `rot_open`, `rot_close`, `rot_cleanup`, `rot_set_conf`,
`rot_get_conf`, `rot_set_position`, `rot_get_position`).

Conventions of the embedding.

* A `ROT *` is an address (`Nat`); a pointer argument that may be `NULL` is an
  `Option`.  Memory is a total map from addresses to `ROT` contents, so a read
  or write through a non-null pointer always yields the bytes stored there.
* A function pointer of the capability table is an `Option`; a backend hook is
  a function on the whole memory (handles and list of opened handles), so a
  hook may change anything the C hook could reach.
* Every model function returns, besides its C result and the memory after the
  call, the list of calls it made to code outside `rotator.c` (backend hooks,
  frontend configuration handlers, `serial_open`, `open`, `fclose`, `close`,
  `free`), in program order.
* `fclose` on a null stream (lines 342-343 with `stream` `NULL`) has undefined
  behaviour in C, and the process dies in it.  The model functions log that call
  and go on, so that they are total; a run that has logged it does not return,
  and `Out.returns` says of a run that it has not.  Statements about what a
  function returns are made for runs that return.
* `azimuth_t` and `elevation_t` are C floats that the frontend only copies;
  they are carried as rationals.
-/

namespace Hamlib

/-! ## Constants of `hamlib/rig.h` -/

/-- Modelled from the spec: the success code `RIG_OK` of `hamlib/rig.h`, a header
that is not part of the sources at hand. -/
def RIG_OK : Int := 0

/-- Modelled from the spec: error code `RIG_EINVAL` of `hamlib/rig.h` (invalid
parameter); the functions return it negated. -/
def RIG_EINVAL : Int := 1

/-- Modelled from the spec: error code `RIG_ENOMEM` of `hamlib/rig.h`. -/
def RIG_ENOMEM : Int := 3

/-- Modelled from the spec: error code `RIG_ENIMPL` of `hamlib/rig.h`. -/
def RIG_ENIMPL : Int := 4

/-- Modelled from the spec: error code of `hamlib/rig.h` for an I/O error. -/
def RIG_EIO : Int := 6

/-- Modelled from the spec: error code `RIG_ENAVAIL` of `hamlib/rig.h`. -/
def RIG_ENAVAIL : Int := 11

/-- Modelled from the spec: member of `enum rig_port_e` in `hamlib/rig.h`. -/
def RIG_PORT_NONE : Int := 0

/-- Modelled from the spec: member of `enum rig_port_e` in `hamlib/rig.h`. -/
def RIG_PORT_SERIAL : Int := 1

/-- Modelled from the spec: member of `enum rig_port_e` in `hamlib/rig.h`. -/
def RIG_PORT_NETWORK : Int := 2

/-- Modelled from the spec: member of `enum rig_port_e` in `hamlib/rig.h`. -/
def RIG_PORT_DEVICE : Int := 3

/-- Modelled from the spec: member of `enum rig_port_e` in `hamlib/rig.h`. -/
def RIG_PORT_RPC : Int := 7

/-- Modelled from the spec: `FILPATHLEN` of `hamlib/rig.h`, the size of the
path buffer of a port. -/
def FILPATHLEN : Nat := 100

/-- The macro `DEFAULT_SERIAL_PORT` (line 50). -/
def DEFAULT_SERIAL_PORT : String := "/dev/rotator"

/-- The C float types `azimuth_t` and `elevation_t`; only copied here. -/
abbrev azimuth_t := Rat

/-- See `azimuth_t`. -/
abbrev elevation_t := Rat

/-! ## Data model -/

/-- Modelled from the spec: the port structure `port_t` of `hamlib/rig.h`, with
the fields `rotator.c` reads and writes: `type.rig`, `fd`, `stream`,
`pathname`, the timing values and `parm.serial.*`. -/
structure port_t where
  type_rig : Int
  fd : Int
  stream : Option Nat
  write_delay : Int
  post_write_delay : Int
  timeout : Int
  retry : Int
  pathname : String
  parm_serial_rate : Int
  parm_serial_data_bits : Int
  parm_serial_stop_bits : Int
  parm_serial_parity : Int
  parm_serial_handshake : Int
  deriving DecidableEq, Repr

/-- Modelled from the spec: `struct rot_state` of `hamlib/rotator.h`: the
configured azimuth and elevation bounds, the last known azimuth and elevation,
the port, the communication status and the backend's private data block. -/
structure rot_state where
  min_az : azimuth_t
  max_az : azimuth_t
  min_el : elevation_t
  max_el : elevation_t
  current_az : azimuth_t
  current_el : elevation_t
  rotport : port_t
  comm_state : Int
  priv : Option Nat
  deriving DecidableEq, Repr

/-- Modelled from the spec: `struct rot` (`ROT`) of `hamlib/rotator.h`: a
pointer to the capability descriptor (`none` is `NULL`) and the state. -/
structure ROT where
  caps : Option Nat
  state : rot_state
  deriving DecidableEq, Repr

/-- The memory the frontend works on: the contents of every `ROT` address and
the static list `opened_rot_list` (lines 55-59), head first. -/
structure Mem where
  rots : Nat → ROT
  opened_rot_list : List Nat

/-- Modelled from the spec: `struct rot_caps` of `hamlib/rotator.h`: the model,
the defaults copied by `rot_init`, and the table of optional backend hooks.
A hook receives the handle and the memory and returns its C result and the
memory it leaves; `get_position` and `get_conf` also receive and return the
contents of their output locations. -/
structure rot_caps where
  rot_model : Int
  port_type : Int
  serial_rate_min : Int
  serial_rate_max : Int
  serial_data_bits : Int
  serial_stop_bits : Int
  serial_parity : Int
  serial_handshake : Int
  write_delay : Int
  post_write_delay : Int
  timeout : Int
  retry : Int
  min_az : azimuth_t
  max_az : azimuth_t
  min_el : elevation_t
  max_el : elevation_t
  rot_init : Option (Nat → Mem → Int × Mem)
  rot_cleanup : Option (Nat → Mem → Int × Mem)
  rot_open : Option (Nat → Mem → Int × Mem)
  rot_close : Option (Nat → Mem → Int × Mem)
  set_conf : Option (Nat → Int → String → Mem → Int × Mem)
  get_conf : Option (Nat → Int → String → Mem → Int × Mem × String)
  set_position : Option (Nat → azimuth_t → elevation_t → Mem → Int × Mem)
  get_position :
    Option (Nat → azimuth_t → elevation_t → Mem → Int × Mem × azimuth_t × elevation_t)
  get_info : Option (Nat → Mem → Option String × Mem)

/-- The capability registry, external to `rotator.c`: `rot_get_caps` (called
after `rot_check_backend`) maps a model to the address of its descriptor or
to `NULL`; `caps_at` reads the descriptor stored at an address. -/
structure Backends where
  rot_get_caps : Int → Option Nat
  caps_at : Nat → rot_caps

/-- What the C library and the serial collaborator answer during one call:
whether `malloc` in `add_opened_rot` succeeds, the address `calloc` returns in
`rot_init` (`none` is `NULL`), `serial_open` (status and the port it leaves)
and `open(pathname, O_RDWR, 0)`. -/
structure Sys where
  malloc_ok : Bool
  calloc : Option Nat
  serial_open : port_t → Int × port_t
  sys_open : String → Int

/-- A call that leaves `rotator.c`. -/
inductive Event where
  | backend_init (rot : Nat)
  | backend_open (rot : Nat)
  | backend_close (rot : Nat)
  | backend_cleanup (rot : Nat)
  | backend_set_position (rot : Nat) (az : azimuth_t) (el : elevation_t)
  | backend_get_position (rot : Nat)
  | backend_set_conf (rot : Nat) (token : Int) (val : String)
  | backend_get_conf (rot : Nat) (token : Int)
  | frontrot_set_conf (rot : Nat) (token : Int) (val : String)
  | frontrot_get_conf (rot : Nat) (token : Int)
  | serial_open (rot : Nat)
  | sys_open (pathname : String)
  | fclose (stream : Option Nat)
  | close (fd : Int)
  | free (rot : Nat)
  deriving DecidableEq, Repr

/-- Result of a frontend function returning `int`. -/
structure Out where
  ret : Int
  mem : Mem
  trace : List Event

/-- Result of `rot_get_position`: as `Out`, with the contents of the two output
locations after the call (`none` for a `NULL` pointer). -/
structure PosOut where
  ret : Int
  mem : Mem
  trace : List Event
  azimuth : Option azimuth_t
  elevation : Option elevation_t

/-- Result of `rot_get_conf`: as `Out`, with the contents of the buffer `val`
after the call (`none` for a `NULL` pointer). -/
structure ConfOut where
  ret : Int
  mem : Mem
  trace : List Event
  val : Option String

/-- The parts of the configuration interface outside `rotator.c`: the macro
`RIG_IS_TOKEN_FRONTEND` of `hamlib/rig.h`, which tells whether a token is of
frontend scope, and the frontend handlers `frontrot_set_conf` and
`frontrot_get_conf` of `rot_conf.h`.  A handler receives the handle, the token,
the value (for get, the contents of the buffer) and the memory. -/
structure Frontconf where
  RIG_IS_TOKEN_FRONTEND : Int → Bool
  frontrot_set_conf : Nat → Int → String → Mem → Int × Mem
  frontrot_get_conf : Nat → Int → String → Mem → Int × Mem × String

/-- Result of `rot_init`: the returned pointer (`none` is `NULL`). -/
structure InitOut where
  rot : Option Nat
  mem : Mem
  trace : List Event

/-- Write to `rot->state`. -/
def Mem.set_state (m : Mem) (rot : Nat) (f : rot_state → rot_state) : Mem :=
  { m with rots := Function.update m.rots rot { m.rots rot with state := f (m.rots rot).state } }

/-- Write to `rot->state.rotport`. -/
def Mem.set_port (m : Mem) (rot : Nat) (f : port_t → port_t) : Mem :=
  m.set_state rot (fun s => { s with rotport := f s.rotport })

/-- The communication status of a handle is open: `comm_state` is non-zero. -/
def is_open (m : Mem) (rot : Nat) : Prop := (m.rots rot).state.comm_state ≠ 0

instance (m : Mem) (rot : Nat) : Decidable (is_open m rot) := by
  unfold is_open; infer_instance

/-! ## The list of opened handles (lines 65-125) -/

/-- Function `add_opened_rot` (lines 65-75): a new node at the head, or `-RIG_ENOMEM`. -/
def add_opened_rot (sys : Sys) (rot : Nat) (m : Mem) : Int × Mem :=
  if sys.malloc_ok = false then (- RIG_ENOMEM, m)
  else (RIG_OK, { m with opened_rot_list := rot :: m.opened_rot_list })

/-- The loop of `remove_opened_rot` (lines 82-93): unlink the first node whose
handle is `rot`; `none` when the scan reaches the end. -/
def remove_opened_rot_loop (rot : Nat) : List Nat → Option (List Nat)
  | [] => none
  | p :: rest =>
    if p = rot then some rest
    else (remove_opened_rot_loop rot rest).map (fun l => p :: l)

/-- Function `remove_opened_rot` (lines 77-95). -/
def remove_opened_rot (rot : Nat) (m : Mem) : Int × Mem :=
  match remove_opened_rot_loop rot m.opened_rot_list with
  | some l => (RIG_OK, { m with opened_rot_list := l })
  | none => (- RIG_EINVAL, m)

/-- The loop of `foreach_opened_rot` (lines 120-123) over the nodes still to
visit.  The visitor `cfunc` receives the handle and its data and returns its C
result and the data it leaves.  The loop returns the visited handles, each with
what the visitor returned on it, in order, and the data. -/
def foreach_opened_rot_loop {D : Type} (cfunc : Nat → D → Int × D) :
    List Nat → D → List (Nat × Int) × D
  | [], data => ([], data)
  | p :: rest, data =>
    if (cfunc p data).1 = 0 then ([(p, (cfunc p data).1)], (cfunc p data).2)
    else
      ((p, (cfunc p data).1) :: (foreach_opened_rot_loop cfunc rest (cfunc p data).2).1,
        (foreach_opened_rot_loop cfunc rest (cfunc p data).2).2)

/-- Function `foreach_opened_rot` (lines 116-125): the C result, the visits made and
the visitor's data. -/
def foreach_opened_rot {D : Type} (cfunc : Nat → D → Int × D) (data : D) (m : Mem) :
    Int × List (Nat × Int) × D :=
  (RIG_OK, foreach_opened_rot_loop cfunc m.opened_rot_list data)

/-! ## Handle operations (lines 140-510) -/

/-- The memory `calloc(1, sizeof(ROT))` hands out: every field zero. -/
def zero_ROT : ROT :=
  { caps := none
    state :=
      { min_az := 0, max_az := 0, min_el := 0, max_el := 0
        current_az := 0, current_el := 0
        rotport :=
          { type_rig := 0, fd := 0, stream := none, write_delay := 0
            post_write_delay := 0, timeout := 0, retry := 0, pathname := ""
            parm_serial_rate := 0, parm_serial_data_bits := 0
            parm_serial_stop_bits := 0, parm_serial_parity := 0
            parm_serial_handshake := 0 }
        comm_state := 0
        priv := none } }

/-- The assignments of `rot_init` to the fresh handle (lines 168-196), in
source order, on the zeroed `ROT`: `rot->caps`, then the fields of `rot->state`. -/
def rot_init_defaults (cp : Nat) (caps : rot_caps) : ROT :=
  let rot : ROT := { zero_ROT with caps := some cp }
  let rs := rot.state
  let rs := { rs with comm_state := 0 }
  let rs := { rs with rotport := { rs.rotport with type_rig := caps.port_type } }
  let rs := { rs with rotport :=
    { rs.rotport with pathname := DEFAULT_SERIAL_PORT.take FILPATHLEN } }
  let rs := { rs with rotport := { rs.rotport with parm_serial_rate := caps.serial_rate_max } }
  let rs := { rs with rotport :=
    { rs.rotport with parm_serial_data_bits := caps.serial_data_bits } }
  let rs := { rs with rotport :=
    { rs.rotport with parm_serial_stop_bits := caps.serial_stop_bits } }
  let rs := { rs with rotport := { rs.rotport with parm_serial_parity := caps.serial_parity } }
  let rs := { rs with rotport :=
    { rs.rotport with parm_serial_handshake := caps.serial_handshake } }
  let rs := { rs with rotport := { rs.rotport with write_delay := caps.write_delay } }
  let rs := { rs with rotport :=
    { rs.rotport with post_write_delay := caps.post_write_delay } }
  let rs := { rs with rotport := { rs.rotport with timeout := caps.timeout } }
  let rs := { rs with rotport := { rs.rotport with retry := caps.retry } }
  let rs := { rs with min_el := caps.min_el }
  let rs := { rs with min_el := caps.min_el }
  let rs := { rs with min_az := caps.min_az }
  let rs := { rs with min_az := caps.min_az }
  let rs := { rs with rotport := { rs.rotport with fd := -1 } }
  { rot with state := rs }

/-- Function `rot_init` (lines 140-214). -/
def rot_init (B : Backends) (sys : Sys) (rot_model : Int) (m : Mem) : InitOut :=
  match B.rot_get_caps rot_model with
  | none => ⟨none, m, []⟩
  | some cp =>
    match sys.calloc with
    | none => ⟨none, m, []⟩
    | some rot =>
      let m1 : Mem := { m with rots := Function.update m.rots rot (rot_init_defaults cp (B.caps_at cp)) }
      match (B.caps_at cp).rot_init with
      | some hook =>
        if (hook rot m1).1 ≠ RIG_OK then
          ⟨none, (hook rot m1).2, [Event.backend_init rot, Event.free rot]⟩
        else ⟨some rot, (hook rot m1).2, [Event.backend_init rot]⟩
      | none => ⟨some rot, m1, []⟩

/-- Function `rot_get_position` (lines 497-510).  `azimuth` and `elevation` are the
output pointers, each `none` for `NULL` or the present contents of its location. -/
def rot_get_position (B : Backends) (rot : Option Nat)
    (azimuth : Option azimuth_t) (elevation : Option elevation_t) (m : Mem) : PosOut :=
  match rot, azimuth, elevation with
  | some r, some az, some el =>
    match (m.rots r).caps with
    | none => ⟨- RIG_EINVAL, m, [], azimuth, elevation⟩
    | some cp =>
      match (B.caps_at cp).get_position with
      | none => ⟨- RIG_ENAVAIL, m, [], azimuth, elevation⟩
      | some hook =>
        ⟨(hook r az el m).1, (hook r az el m).2.1, [Event.backend_get_position r],
          some (hook r az el m).2.2.1, some (hook r az el m).2.2.2⟩
  | _, _, _ => ⟨- RIG_EINVAL, m, [], azimuth, elevation⟩

/-- Function `rot_set_position` (lines 467-480). -/
def rot_set_position (B : Backends) (rot : Option Nat)
    (azimuth : azimuth_t) (elevation : elevation_t) (m : Mem) : Out :=
  match rot with
  | none => ⟨- RIG_EINVAL, m, []⟩
  | some r =>
    match (m.rots r).caps with
    | none => ⟨- RIG_EINVAL, m, []⟩
    | some cp =>
      match (B.caps_at cp).set_position with
      | none => ⟨- RIG_ENAVAIL, m, []⟩
      | some hook =>
        ⟨(hook r azimuth elevation m).1, (hook r azimuth elevation m).2,
          [Event.backend_set_position r azimuth elevation]⟩

/-- The release of the port in `rot_close` (lines 341-348): the library call made
(`fclose` when `!rs->rotport.stream` holds, `close` otherwise) and the reset of
`fd` and `stream`; nothing when `fd` is `-1`.  When the stream is `NULL` the
call logged is `fclose none`: the C program does not get past that call, and
the memory given for it here is not a state of the program (see
`Out.returns`). -/
def rot_close_port (rot : Nat) (m : Mem) : Mem × List Event :=
  if (m.rots rot).state.rotport.fd ≠ -1 then
    (m.set_port rot (fun p => { p with fd := -1, stream := none }),
      [if (m.rots rot).state.rotport.stream = none
        then Event.fclose (m.rots rot).state.rotport.stream
        else Event.close (m.rots rot).state.rotport.fd])
  else (m, [])

/-- The call of the backend's close hook in `rot_close` (lines 337-338); its
result is dropped. -/
def rot_close_hook (caps : rot_caps) (rot : Nat) (m : Mem) : Mem × List Event :=
  match caps.rot_close with
  | some hook => ((hook rot m).2, [Event.backend_close rot])
  | none => (m, [])

/-- Function `rot_close` (lines 317-355). -/
def rot_close (B : Backends) (rot : Option Nat) (m : Mem) : Out :=
  match rot with
  | none => ⟨- RIG_EINVAL, m, []⟩
  | some r =>
    match (m.rots r).caps with
    | none => ⟨- RIG_EINVAL, m, []⟩
    | some cp =>
      if (m.rots r).state.comm_state = 0 then ⟨- RIG_EINVAL, m, []⟩
      else
        let h := rot_close_hook (B.caps_at cp) r m
        let c := rot_close_port r h.1
        let m3 := (remove_opened_rot r c.1).2
        let m4 := m3.set_state r (fun s => { s with comm_state := 0 })
        ⟨RIG_OK, m4, h.2 ++ c.2⟩

/-- The `switch` on the port type in `rot_open` (lines 254-276).  The first
component is `some status` when the function returns `status` from inside the
switch, and `none` when control leaves the switch by `break`. -/
def rot_open_port (sys : Sys) (rot : Nat) (m : Mem) : Option Int × Mem × List Event :=
  let port := (m.rots rot).state.rotport
  if port.type_rig = RIG_PORT_SERIAL then
    let m1 := m.set_port rot (fun _ => (sys.serial_open port).2)
    if (sys.serial_open port).1 ≠ 0 then
      (some (sys.serial_open port).1, m1, [Event.serial_open rot])
    else (none, m1, [Event.serial_open rot])
  else if port.type_rig = RIG_PORT_DEVICE then
    if sys.sys_open port.pathname < 0 then
      (some (- RIG_EIO), m, [Event.sys_open port.pathname])
    else
      (none, m.set_port rot (fun p => { p with fd := sys.sys_open port.pathname }),
        [Event.sys_open port.pathname])
  else if port.type_rig = RIG_PORT_NONE ∨ port.type_rig = RIG_PORT_RPC then
    (none, m, [])
  else if port.type_rig = RIG_PORT_NETWORK then (some (- RIG_ENIMPL), m, [])
  else (some (- RIG_EINVAL), m, [])

/-- The part of `rot_open` after the switch (lines 279-300): register, mark open,
call the backend's open hook, close again when it fails, else query the
position once.  The locals `az` and `el` are uninitialised in C; their contents
before the query are taken as `0`, and what the query stores in them is dropped. -/
def rot_open_finish (B : Backends) (sys : Sys) (cp : Nat) (rot : Nat) (m : Mem) : Out :=
  let m1 := (add_opened_rot sys rot m).2
  let m2 := m1.set_state rot (fun s => { s with comm_state := 1 })
  match (B.caps_at cp).rot_open with
  | some hook =>
    if (hook rot m2).1 ≠ RIG_OK then
      ⟨(hook rot m2).1, (rot_close B (some rot) (hook rot m2).2).mem,
        Event.backend_open rot :: (rot_close B (some rot) (hook rot m2).2).trace⟩
    else
      ⟨RIG_OK, (rot_get_position B (some rot) (some 0) (some 0) (hook rot m2).2).mem,
        Event.backend_open rot ::
          (rot_get_position B (some rot) (some 0) (some 0) (hook rot m2).2).trace⟩
  | none =>
    ⟨RIG_OK, (rot_get_position B (some rot) (some 0) (some 0) m2).mem,
      (rot_get_position B (some rot) (some 0) (some 0) m2).trace⟩

/-- Function `rot_open` (lines 233-301). -/
def rot_open (B : Backends) (sys : Sys) (rot : Option Nat) (m : Mem) : Out :=
  match rot with
  | none => ⟨- RIG_EINVAL, m, []⟩
  | some r =>
    match (m.rots r).caps with
    | none => ⟨- RIG_EINVAL, m, []⟩
    | some cp =>
      if (m.rots r).state.comm_state ≠ 0 then ⟨- RIG_EINVAL, m, []⟩
      else
        let m1 := m.set_port r (fun p => { p with fd := -1 })
        match rot_open_port sys r m1 with
        | (some status, m2, t) => ⟨status, m2, t⟩
        | (none, m2, t) =>
          ⟨(rot_open_finish B sys cp r m2).ret, (rot_open_finish B sys cp r m2).mem,
            t ++ (rot_open_finish B sys cp r m2).trace⟩

/-- The call of the backend's cleanup hook in `rot_cleanup` (lines 387-388), read
through `rot->caps` at that point; its result is dropped. -/
def rot_cleanup_hook (B : Backends) (rot : Nat) (m : Mem) : Mem × List Event :=
  match (m.rots rot).caps with
  | some cp =>
    match (B.caps_at cp).rot_cleanup with
    | some hook => ((hook rot m).2, [Event.backend_cleanup rot])
    | none => (m, [])
  | none => (m, [])

/-- Function `rot_cleanup` (lines 371-393). -/
def rot_cleanup (B : Backends) (rot : Option Nat) (m : Mem) : Out :=
  match rot with
  | none => ⟨- RIG_EINVAL, m, []⟩
  | some r =>
    match (m.rots r).caps with
    | none => ⟨- RIG_EINVAL, m, []⟩
    | some _ =>
      let c : Out :=
        if (m.rots r).state.comm_state ≠ 0 then rot_close B (some r) m else ⟨RIG_OK, m, []⟩
      let k := rot_cleanup_hook B r c.mem
      ⟨RIG_OK, k.1, c.trace ++ k.2 ++ [Event.free r]⟩

/-- Function `rot_set_conf` (lines 410-422). -/
def rot_set_conf (B : Backends) (F : Frontconf) (rot : Option Nat) (token : Int)
    (val : String) (m : Mem) : Out :=
  match rot with
  | none => ⟨- RIG_EINVAL, m, []⟩
  | some r =>
    match (m.rots r).caps with
    | none => ⟨- RIG_EINVAL, m, []⟩
    | some cp =>
      if F.RIG_IS_TOKEN_FRONTEND token = true then
        ⟨(F.frontrot_set_conf r token val m).1, (F.frontrot_set_conf r token val m).2,
          [Event.frontrot_set_conf r token val]⟩
      else
        match (B.caps_at cp).set_conf with
        | none => ⟨- RIG_ENAVAIL, m, []⟩
        | some hook =>
          ⟨(hook r token val m).1, (hook r token val m).2,
            [Event.backend_set_conf r token val]⟩

/-- Function `rot_get_conf` (lines 438-450).  `val` is the output buffer, `none` for
`NULL` or its present contents. -/
def rot_get_conf (B : Backends) (F : Frontconf) (rot : Option Nat) (token : Int)
    (val : Option String) (m : Mem) : ConfOut :=
  match rot, val with
  | some r, some buf =>
    match (m.rots r).caps with
    | none => ⟨- RIG_EINVAL, m, [], val⟩
    | some cp =>
      if F.RIG_IS_TOKEN_FRONTEND token = true then
        ⟨(F.frontrot_get_conf r token buf m).1, (F.frontrot_get_conf r token buf m).2.1,
          [Event.frontrot_get_conf r token], some (F.frontrot_get_conf r token buf m).2.2⟩
      else
        match (B.caps_at cp).get_conf with
        | none => ⟨- RIG_ENAVAIL, m, [], val⟩
        | some hook =>
          ⟨(hook r token buf m).1, (hook r token buf m).2.1,
            [Event.backend_get_conf r token], some (hook r token buf m).2.2⟩
  | _, _ => ⟨- RIG_EINVAL, m, [], val⟩

/-! ## Vocabulary of the statements -/

/-- The registry invariant: a handle is in `opened_rot_list` exactly when its
communication status is open, and no handle is listed twice. -/
def registry_inv (m : Mem) : Prop :=
  (∀ h, h ∈ m.opened_rot_list ↔ is_open m h) ∧ m.opened_rot_list.Nodup

/-- Memory `n` has the list of opened handles of `m` and the same handles open. -/
def keeps (m n : Mem) : Prop :=
  n.opened_rot_list = m.opened_rot_list ∧ ∀ h, is_open n h ↔ is_open m h

/-- Every hook that `rot_open`, `rot_close` and `rot_cleanup` may call (open,
close, cleanup, get_position) leaves the list of opened handles and the
open or closed status of every handle as it found them. -/
def hooks_keep (B : Backends) : Prop :=
  ∀ cp,
    (∀ f, (B.caps_at cp).rot_open = some f → ∀ r m, keeps m (f r m).2) ∧
    (∀ f, (B.caps_at cp).rot_close = some f → ∀ r m, keeps m (f r m).2) ∧
    (∀ f, (B.caps_at cp).rot_cleanup = some f → ∀ r m, keeps m (f r m).2) ∧
    (∀ f, (B.caps_at cp).get_position = some f → ∀ r az el m, keeps m (f r az el m).2.1)

/-- One call of the lifecycle interface; a `rot_open` carries what the C library
and the serial collaborator answer during it. -/
inductive Call where
  | rot_open (sys : Sys) (rot : Option Nat)
  | rot_close (rot : Option Nat)
  | rot_cleanup (rot : Option Nat)

/-- The memory after one call. -/
def Call.run (B : Backends) : Call → Mem → Mem
  | Call.rot_open sys rot, m => (Hamlib.rot_open B sys rot m).mem
  | Call.rot_close rot, m => (Hamlib.rot_close B rot m).mem
  | Call.rot_cleanup rot, m => (Hamlib.rot_cleanup B rot m).mem

/-- The memory after a sequence of calls, made from left to right. -/
def run_calls (B : Backends) : List Call → Mem → Mem
  | [], m => m
  | c :: cs, m => run_calls B cs (c.run B m)

/-- The insertion into the list succeeds during the call: `malloc` in
`add_opened_rot` does not fail. -/
def Call.insertion_ok : Call → Prop
  | Call.rot_open sys _ => sys.malloc_ok = true
  | _ => True

/-- The memory in which `rot_open` calls the backend's open hook (line 288):
after line 252, the switch, `add_opened_rot` and `comm_state = 1`. -/
def rot_open_hook_input (sys : Sys) (r : Nat) (m : Mem) : Mem :=
  (add_opened_rot sys r
    (rot_open_port sys r (m.set_port r (fun p => { p with fd := -1 }))).2.1).2.set_state r
      (fun s => { s with comm_state := 1 })

/-- The event is a call that opens a transport: `serial_open` or `open`. -/
def Event.is_port_open : Event → Bool
  | Event.serial_open _ => true
  | Event.sys_open _ => true
  | _ => false

/-- The memory in which `rot_init` calls the backend's init hook (line 204): the
handle at the address from `calloc` holds the defaults. -/
def rot_init_hook_input (B : Backends) (cp rot : Nat) (m : Mem) : Mem :=
  { m with rots := Function.update m.rots rot (rot_init_defaults cp (B.caps_at cp)) }

/-- Modelled from the spec: the code the specification's error taxonomy names
InvalidArgument.  The source writes it `-RIG_EINVAL`; it is what the frontend
returns for a missing handle or descriptor (for instance line 472). -/
def InvalidArgument : Int := - RIG_EINVAL

/-- The memory in which `rot_open` makes its position query (line 298): the one
the open hook leaves, or the one of `rot_open_hook_input` when the descriptor
has no open hook. -/
def rot_open_query_input (B : Backends) (sys : Sys) (cp r : Nat) (m : Mem) : Mem :=
  match (B.caps_at cp).rot_open with
  | some hook => (hook r (rot_open_hook_input sys r m)).2
  | none => rot_open_hook_input sys r m

/-- The call of the open hook that `rot_open` makes for a descriptor: one call
when the hook is present, none otherwise. -/
def rot_open_hook_calls (B : Backends) (cp r : Nat) : List Event :=
  match (B.caps_at cp).rot_open with
  | some _ => [Event.backend_open r]
  | none => []

/-- What a `get_position` slot does to the memory when `rot_get_position` comes
to it: the memory its hook leaves, or the same memory when the slot is `NULL`. -/
def position_effect
    (slot : Option (Nat → azimuth_t → elevation_t → Mem → Int × Mem × azimuth_t × elevation_t))
    (r : Nat) (az : azimuth_t) (el : elevation_t) (m : Mem) : Mem :=
  match slot with
  | some g => (g r az el m).2.1
  | none => m

/-- Two capability registries that differ at most in what their `get_position`
hooks return and store in the output locations: the open and close hooks are
the same, a descriptor has `get_position` in both or in neither, and the two
`get_position` hooks have the same effect on the memory. -/
def same_but_position_outputs (B1 B2 : Backends) : Prop :=
  ∀ cp,
    (B1.caps_at cp).rot_open = (B2.caps_at cp).rot_open ∧
    (B1.caps_at cp).rot_close = (B2.caps_at cp).rot_close ∧
    (B1.caps_at cp).get_position.isSome = (B2.caps_at cp).get_position.isSome ∧
    ∀ r az el m,
      position_effect (B1.caps_at cp).get_position r az el m
        = position_effect (B2.caps_at cp).get_position r az el m

/-- Memories `m` and `n` hold the same contents for handle `r` and the same list
of opened handles. -/
def same_handle_and_list (r : Nat) (m n : Mem) : Prop :=
  m.rots r = n.rots r ∧ m.opened_rot_list = n.opened_rot_list

/-- As `same_but_position_outputs`, with the two `get_position` hooks only
required to have the same effect on handle `r` and on the list of opened
handles when called for `r`. -/
def same_but_position_outputs_for (r : Nat) (B1 B2 : Backends) : Prop :=
  ∀ cp,
    (B1.caps_at cp).rot_open = (B2.caps_at cp).rot_open ∧
    (B1.caps_at cp).rot_close = (B2.caps_at cp).rot_close ∧
    (B1.caps_at cp).get_position.isSome = (B2.caps_at cp).get_position.isSome ∧
    ∀ az el m,
      same_handle_and_list r (position_effect (B1.caps_at cp).get_position r az el m)
        (position_effect (B2.caps_at cp).get_position r az el m)

/-- The run returns to its caller: it has not passed a null stream to `fclose`.
That call (lines 342-343, reached when `fd` is not -1 and `stream` is `NULL`)
has undefined behaviour in C and the process dies in it, so a run that made it
has no result. -/
def Out.returns (o : Out) : Prop := Event.fclose none ∉ o.trace

instance (o : Out) : Decidable o.returns := by
  unfold Out.returns; infer_instance

/-- The port can be released without passing a null stream to `fclose`: its
descriptor is -1 (nothing is released) or it has a stream. -/
def port_t.releasable (p : port_t) : Prop := p.fd = -1 ∨ p.stream ≠ none

instance (p : port_t) : Decidable p.releasable := by
  unfold port_t.releasable; infer_instance

/-- The library call by which `rot_close` releases a releasable port (lines
341-345): none when the descriptor is -1, else `close` on the descriptor. -/
def release_calls (p : port_t) : List Event :=
  if p.fd = -1 then [] else [Event.close p.fd]

/-- The port of handle `r` at the point where the rollback of a failed `rot_open`
comes to release it (line 341, reached from line 290): after the open hook
`hook` has failed and the close hook of the descriptor, if any, has run. -/
def rot_open_rollback_port (B : Backends) (sys : Sys) (cp r : Nat)
    (hook : Nat → Mem → Int × Mem) (m : Mem) : port_t :=
  ((rot_close_hook (B.caps_at cp) r (hook r (rot_open_hook_input sys r m)).2).1.rots
    r).state.rotport

/-- The call of the close hook that `rot_close` makes for a descriptor: one call
when the hook is present, none otherwise. -/
def rot_close_hook_calls (B : Backends) (cp r : Nat) : List Event :=
  match (B.caps_at cp).rot_close with
  | some _ => [Event.backend_close r]
  | none => []

/-- The call of the cleanup hook that `rot_cleanup` makes for a descriptor: one
call when the hook is present, none otherwise. -/
def rot_cleanup_hook_calls (B : Backends) (cp r : Nat) : List Event :=
  match (B.caps_at cp).rot_cleanup with
  | some _ => [Event.backend_cleanup r]
  | none => []

/-! ## Example data -/

/-- A descriptor without hooks, for a rotator that needs no port. -/
def ex_caps : rot_caps :=
  { rot_model := 1, port_type := RIG_PORT_NONE
    serial_rate_min := 1200, serial_rate_max := 9600
    serial_data_bits := 8, serial_stop_bits := 1, serial_parity := 0, serial_handshake := 0
    write_delay := 0, post_write_delay := 0, timeout := 200, retry := 3
    min_az := 0, max_az := 360, min_el := 0, max_el := 90
    rot_init := none, rot_cleanup := none, rot_open := none, rot_close := none
    set_conf := none, get_conf := none, set_position := none, get_position := none
    get_info := none }

/-- A descriptor with hooks: the open hook sets the private data, the close
hook reports an error, the cleanup hook clears the private data and the
position query answers (180, 45). -/
def ex_caps_hooks : rot_caps :=
  { ex_caps with
    rot_open := some (fun r m => (0, m.set_state r (fun s => { s with priv := some 1 })))
    rot_close := some (fun _ m => (-5, m))
    rot_cleanup := some (fun r m => (0, m.set_state r (fun s => { s with priv := none })))
    get_position := some (fun _ _ _ m => (0, m, 180, 45)) }

/-- A descriptor whose open hook fails with `-8`. -/
def ex_caps_open_fails : rot_caps :=
  { ex_caps with
    rot_open := some (fun _ m => (-8, m))
    rot_close := some (fun _ m => (-5, m)) }

/-- A capability registry that knows the model of `caps` only, stored at
address 100. -/
def ex_backends (caps : rot_caps) : Backends :=
  { rot_get_caps := fun model => if model = caps.rot_model then some 100 else none
    caps_at := fun _ => caps }

/-- A C library where every allocation and every open succeeds. -/
def ex_sys : Sys :=
  { malloc_ok := true, calloc := some 1
    serial_open := fun p => (0, { p with fd := 5, stream := some 9 })
    sys_open := fun _ => 4 }

/-- A memory where every address holds a closed handle of `ex_caps` as
`rot_init` leaves it, and no handle is listed as opened. -/
def ex_mem : Mem :=
  { rots := fun _ => rot_init_defaults 100 ex_caps, opened_rot_list := [] }

/-- The memory `ex_mem` with the handle at address 1 marked open and listed. -/
def ex_mem_open : Mem :=
  { (ex_mem.set_state 1 (fun s => { s with comm_state := 1 })) with opened_rot_list := [1] }

/-- Open 1, open 2, close 1, destroy 2, open 1 again. -/
def ex_calls : List Call :=
  [Call.rot_open ex_sys (some 1), Call.rot_open ex_sys (some 2), Call.rot_close (some 1),
    Call.rot_cleanup (some 2), Call.rot_open ex_sys (some 1)]

/-- A descriptor for a serial rotator whose open hook fails with `-8`. -/
def ex_caps_serial_fails : rot_caps :=
  { ex_caps_open_fails with port_type := RIG_PORT_SERIAL }

/-- A memory where every address holds a closed handle of `ex_caps_serial_fails`
as `rot_init` leaves it, and no handle is listed as opened. -/
def ex_mem_serial : Mem :=
  { rots := fun _ => rot_init_defaults 100 ex_caps_serial_fails, opened_rot_list := [] }

/-- Open the handles 1, 2 and 3 in that order. -/
def ex_calls_abc : List Call :=
  [Call.rot_open ex_sys (some 1), Call.rot_open ex_sys (some 2), Call.rot_open ex_sys (some 3)]

/-- A descriptor without hooks for a rotator on a serial line. -/
def ex_caps_serial : rot_caps := { ex_caps with port_type := RIG_PORT_SERIAL }

/-- A descriptor without hooks for a rotator behind a device file. -/
def ex_caps_device : rot_caps := { ex_caps with port_type := RIG_PORT_DEVICE }

/-- A memory where every address holds a closed handle of `caps` as `rot_init`
leaves it, and no handle is listed as opened. -/
def ex_mem_of (caps : rot_caps) : Mem :=
  { rots := fun _ => rot_init_defaults 100 caps, opened_rot_list := [] }

/-- The memory after `rot_open` on handle 1 of a serial rotator: `serial_open`
has stored descriptor 5 and stream 9. -/
def ex_mem_serial_opened : Mem :=
  (rot_open (ex_backends ex_caps_serial) ex_sys (some 1) (ex_mem_of ex_caps_serial)).mem

/-- The memory after `rot_open` on handle 1 of a device-file rotator: `open` has
returned descriptor 4 and there is no stream. -/
def ex_mem_device_opened : Mem :=
  (rot_open (ex_backends ex_caps_device) ex_sys (some 1) (ex_mem_of ex_caps_device)).mem

/-- A descriptor whose port type is the network type. -/
def ex_caps_network : rot_caps := { ex_caps_hooks with port_type := RIG_PORT_NETWORK }

/-- A descriptor whose port type, 4, is none of the five that `rot_open` names. -/
def ex_caps_other : rot_caps := { ex_caps_hooks with port_type := 4 }

/-- A descriptor without hooks whose defaults are all different from zero. -/
def ex_caps_bounds : rot_caps :=
  { ex_caps with
    port_type := RIG_PORT_SERIAL
    serial_parity := 1, serial_handshake := 2
    write_delay := 2, post_write_delay := 3
    min_az := -180, max_az := 180, min_el := -5, max_el := 90 }

/-- A descriptor whose init hook sets the private data and succeeds. -/
def ex_caps_init_ok : rot_caps :=
  { ex_caps with
    rot_init := some (fun r m => (0, m.set_state r (fun s => { s with priv := some 7 }))) }

/-- A descriptor whose init hook fails with `-3`. -/
def ex_caps_init_fails : rot_caps :=
  { ex_caps with rot_init := some (fun _ m => (-3, m)) }

/-- A memory of zeroes with no handle listed as opened. -/
def ex_mem_blank : Mem := { rots := fun _ => zero_ROT, opened_rot_list := [] }

/-- The handle that `rot_init` creates at address 1 for the model of
`ex_caps_bounds`. -/
def ex_init_handle : ROT :=
  (rot_init (ex_backends ex_caps_bounds) ex_sys 1 ex_mem_blank).mem.rots 1

/-- The memory after `rot_init` has created a handle at address 1 for the model
of `ex_caps_hooks`; the handle has not been opened. -/
def ex_mem_created : Mem :=
  (rot_init (ex_backends ex_caps_hooks) ex_sys 1 ex_mem_blank).mem

/-- The memory after the handles 1, 2 and 3 of `ex_caps_hooks` have been opened
in that order: the list of opened handles is 3, 2, 1. -/
def ex_mem_three_open : Mem :=
  run_calls (ex_backends ex_caps_hooks) ex_calls_abc ex_mem

/-- A frontend configuration: the tokens with bit 30 set are of frontend scope;
the set handler stores the value as the path of the port, the get handler
returns that path. -/
def ex_frontconf : Frontconf :=
  { RIG_IS_TOKEN_FRONTEND := fun t => decide (t / 1073741824 % 2 = 1)
    frontrot_set_conf := fun r _ val m => (0, m.set_port r (fun p => { p with pathname := val }))
    frontrot_get_conf := fun r _ _ m => (0, m, (m.rots r).state.rotport.pathname) }

/-- A descriptor with configuration hooks: set fails with `-9`, get answers
"backend" with result 0. -/
def ex_caps_conf : rot_caps :=
  { ex_caps with
    set_conf := some (fun _ _ _ m => (-9, m))
    get_conf := some (fun _ _ _ m => (0, m, "backend")) }

/-- A C library as `ex_sys`, except that `malloc` fails. -/
def ex_sys_nomem : Sys := { ex_sys with malloc_ok := false }

/-- A descriptor with position hooks: `set_position` stores the target as the
last known position and succeeds, `get_position` reports the last known
position. -/
def ex_caps_position : rot_caps :=
  { ex_caps with
    set_position := some (fun r az el m =>
      (0, m.set_state r (fun s => { s with current_az := az, current_el := el })))
    get_position := some (fun r _ _ m =>
      (0, m, (m.rots r).state.current_az, (m.rots r).state.current_el)) }

/-- A descriptor whose position query fails with `-8` and whose open hook
succeeds. -/
def ex_caps_query_fails : rot_caps :=
  { ex_caps with
    rot_open := some (fun _ m => (0, m))
    get_position := some (fun _ az el m => (-8, m, az, el)) }

/-- A descriptor whose open hook looks for its handle in the list of opened
handles and fails with `-7` when the handle is not there. -/
def ex_caps_probe : rot_caps :=
  { ex_caps with
    rot_open := some (fun r m => (if r ∈ m.opened_rot_list then 0 else -7, m)) }

/-- A descriptor whose position query answers (10, 20) and leaves the memory
alone. -/
def ex_caps_query_a : rot_caps :=
  { ex_caps with get_position := some (fun _ _ _ m => (0, m, 10, 20)) }

/-- A descriptor whose position query answers (300, 80) with result `-8` and
leaves the memory alone. -/
def ex_caps_query_b : rot_caps :=
  { ex_caps with get_position := some (fun _ _ _ m => (-8, m, 300, 80)) }

/-- A descriptor with the hooks of `ex_caps_hooks` for a rotator on a serial line. -/
def ex_caps_serial_hooks : rot_caps := { ex_caps_hooks with port_type := RIG_PORT_SERIAL }

/-- A descriptor with the hooks of `ex_caps_hooks` for a rotator behind a device
file. -/
def ex_caps_device_hooks : rot_caps := { ex_caps_hooks with port_type := RIG_PORT_DEVICE }

/-- The memory after `rot_open` on handle 1 of `ex_caps_serial_hooks`: the handle
is open and listed, with descriptor 5 and stream 9. -/
def ex_mem_serial_hooks_opened : Mem :=
  (rot_open (ex_backends ex_caps_serial_hooks) ex_sys (some 1)
    (ex_mem_of ex_caps_serial_hooks)).mem

/-- The memory after `rot_open` on handle 1 of `ex_caps_device_hooks`: the handle
is open and listed, with descriptor 4 and no stream. -/
def ex_mem_device_hooks_opened : Mem :=
  (rot_open (ex_backends ex_caps_device_hooks) ex_sys (some 1)
    (ex_mem_of ex_caps_device_hooks)).mem

/-- A descriptor whose close hook puts its handle into the list of opened
handles once more. -/
def ex_caps_relist : rot_caps :=
  { ex_caps with
    rot_close := some (fun r m => (0, { m with opened_rot_list := r :: m.opened_rot_list })) }

/-- The memory `ex_mem_open` with the open handle 1 listed twice. -/
def ex_mem_listed_twice : Mem := { ex_mem_open with opened_rot_list := [1, 1] }

/-- A descriptor for a serial rotator whose open hook clears `comm_state` and
then fails with `-8`. -/
def ex_caps_forget_fails : rot_caps :=
  { ex_caps_serial with
    rot_open := some (fun r m => (-8, m.set_state r (fun s => { s with comm_state := 0 })))
    rot_close := some (fun _ m => (-5, m)) }

/-- A descriptor for a rotator behind a device file whose open hook fails with
`-8`. -/
def ex_caps_device_fails : rot_caps :=
  { ex_caps_open_fails with port_type := RIG_PORT_DEVICE }

/-- The memory `ex_mem` with the closed handle 1 in the list of opened handles. -/
def ex_mem_listed_closed : Mem := { ex_mem with opened_rot_list := [1] }

/-- A descriptor whose cleanup hook puts its handle into the list of opened
handles. -/
def ex_caps_cleanup_relist : rot_caps :=
  { ex_caps with
    rot_cleanup := some (fun r m => (0, { m with opened_rot_list := r :: m.opened_rot_list })) }

/-- The memory after the handles 1, 2 and 3 of `ex_caps_serial_hooks` have been
opened in that order: the list is 3, 2, 1 and each handle has descriptor 5 and
stream 9. -/
def ex_mem_three_serial_open : Mem :=
  run_calls (ex_backends ex_caps_serial_hooks) ex_calls_abc (ex_mem_of ex_caps_serial_hooks)

/-- A descriptor whose open hook clears `comm_state` and reports success. -/
def ex_caps_forget : rot_caps :=
  { ex_caps with
    rot_open := some (fun r m => (0, m.set_state r (fun s => { s with comm_state := 0 }))) }

/-! ## Lemmas on memory writes and on the list -/

@[simp] theorem set_state_list (m : Mem) (r : Nat) (f : rot_state → rot_state) :
    (m.set_state r f).opened_rot_list = m.opened_rot_list := rfl

@[simp] theorem set_state_rots_self (m : Mem) (r : Nat) (f : rot_state → rot_state) :
    (m.set_state r f).rots r = { m.rots r with state := f (m.rots r).state } := by
  simp [Mem.set_state]

theorem set_state_rots_ne (m : Mem) (r h : Nat) (f : rot_state → rot_state) (hne : h ≠ r) :
    (m.set_state r f).rots h = m.rots h := by
  simp [Mem.set_state, Function.update, hne]

@[simp] theorem set_port_list (m : Mem) (r : Nat) (f : port_t → port_t) :
    (m.set_port r f).opened_rot_list = m.opened_rot_list := rfl

@[simp] theorem set_port_rots_self (m : Mem) (r : Nat) (f : port_t → port_t) :
    (m.set_port r f).rots r =
      { m.rots r with state := { (m.rots r).state with rotport := f (m.rots r).state.rotport } } := by
  simp [Mem.set_port]

theorem set_port_rots_ne (m : Mem) (r h : Nat) (f : port_t → port_t) (hne : h ≠ r) :
    (m.set_port r f).rots h = m.rots h := by
  simp [Mem.set_port, set_state_rots_ne _ _ _ _ hne]

theorem remove_loop_eq (rot : Nat) (l : List Nat) :
    remove_opened_rot_loop rot l = if rot ∈ l then some (l.erase rot) else none := by
  induction l with
  | nil => simp [remove_opened_rot_loop]
  | cons p rest ih =>
    by_cases hp : p = rot
    · subst hp; simp [remove_opened_rot_loop]
    · have hp2 : ¬ rot = p := fun h => hp h.symm
      by_cases hm : rot ∈ rest
      · simp [remove_opened_rot_loop, hp, hp2, ih, hm, List.erase_cons_tail]
      · simp [remove_opened_rot_loop, hp, hp2, ih, hm]

theorem remove_list (rot : Nat) (m : Mem) :
    (remove_opened_rot rot m).2.opened_rot_list = m.opened_rot_list.erase rot := by
  unfold remove_opened_rot
  rw [remove_loop_eq]
  by_cases hm : rot ∈ m.opened_rot_list
  · simp [hm]
  · simp [hm, List.erase_of_not_mem hm]

theorem remove_rots (rot : Nat) (m : Mem) : (remove_opened_rot rot m).2.rots = m.rots := by
  unfold remove_opened_rot
  split <;> rfl

theorem keeps_refl (m : Mem) : keeps m m := ⟨rfl, fun _ => Iff.rfl⟩

theorem keeps_trans {a b c : Mem} (h1 : keeps a b) (h2 : keeps b c) : keeps a c :=
  ⟨h2.1.trans h1.1, fun h => (h2.2 h).trans (h1.2 h)⟩

theorem inv_of_keeps {m n : Mem} (hk : keeps m n) (hi : registry_inv m) : registry_inv n := by
  refine ⟨fun h => ?_, ?_⟩
  · rw [hk.1, hk.2 h]; exact hi.1 h
  · rw [hk.1]; exact hi.2

theorem keeps_set_port (m : Mem) (r : Nat) (f : port_t → port_t) : keeps m (m.set_port r f) := by
  refine ⟨rfl, fun h => ?_⟩
  by_cases hr : h = r
  · subst hr; simp [is_open]
  · simp [is_open, set_port_rots_ne _ _ _ _ hr]

theorem keeps_rot_close_port (r : Nat) (m : Mem) : keeps m (rot_close_port r m).1 := by
  unfold rot_close_port
  split
  · exact keeps_set_port _ _ _
  · exact keeps_refl _

theorem keeps_rot_open_port (sys : Sys) (r : Nat) (m : Mem) :
    keeps m (rot_open_port sys r m).2.1 := by
  unfold rot_open_port
  simp only
  split_ifs <;> first | exact keeps_set_port _ _ _ | exact keeps_refl _

theorem keeps_rot_close_hook (B : Backends) (hB : hooks_keep B) (cp r : Nat) (m : Mem) :
    keeps m (rot_close_hook (B.caps_at cp) r m).1 := by
  unfold rot_close_hook
  split
  · next hook hh => exact (hB cp).2.1 hook hh r m
  · exact keeps_refl _

theorem keeps_rot_cleanup_hook (B : Backends) (hB : hooks_keep B) (r : Nat) (m : Mem) :
    keeps m (rot_cleanup_hook B r m).1 := by
  unfold rot_cleanup_hook
  split
  · next cp _ =>
    split
    · next hook hh => exact (hB cp).2.2.1 hook hh r m
    · exact keeps_refl _
  · exact keeps_refl _

theorem keeps_rot_get_position (B : Backends) (hB : hooks_keep B) (rot : Option Nat)
    (az : Option azimuth_t) (el : Option elevation_t) (m : Mem) :
    keeps m (rot_get_position B rot az el m).mem := by
  unfold rot_get_position
  split
  · next r a e =>
    split
    · exact keeps_refl _
    · next cp _ =>
      split
      · exact keeps_refl _
      · next hook hh => exact (hB cp).2.2.2 hook hh r a e m
  · exact keeps_refl _

/-- Unlinking `r` and marking it closed restores the invariant. -/
theorem inv_unlink_close (r : Nat) (m : Mem) (hi : registry_inv m) :
    registry_inv ((remove_opened_rot r m).2.set_state r (fun s => { s with comm_state := 0 })) := by
  refine ⟨fun h => ?_, ?_⟩
  · rw [set_state_list, remove_list]
    by_cases hr : h = r
    · subst hr
      simp [is_open, List.Nodup.mem_erase_iff hi.2]
    · have h1 : h ∈ m.opened_rot_list.erase r ↔ h ∈ m.opened_rot_list :=
        List.mem_erase_of_ne hr
      rw [h1, hi.1 h]
      simp [is_open, set_state_rots_ne _ _ _ _ hr, remove_rots]
  · rw [set_state_list, remove_list]
    exact hi.2.erase r

theorem inv_rot_close (B : Backends) (hB : hooks_keep B) (rot : Option Nat) (m : Mem)
    (hi : registry_inv m) : registry_inv (rot_close B rot m).mem := by
  unfold rot_close
  split
  · exact hi
  · next r =>
    split
    · exact hi
    · next cp _ =>
      split
      · exact hi
      · simp only
        apply inv_unlink_close
        exact inv_of_keeps (keeps_rot_close_port _ _)
          (inv_of_keeps (keeps_rot_close_hook B hB cp r m) hi)

/-- Registering a closed handle and marking it open restores the invariant. -/
theorem inv_link_open (sys : Sys) (hs : sys.malloc_ok = true) (r : Nat) (m : Mem)
    (hc : ¬ is_open m r) (hi : registry_inv m) :
    registry_inv ((add_opened_rot sys r m).2.set_state r (fun s => { s with comm_state := 1 })) := by
  have hr : r ∉ m.opened_rot_list := fun h => hc ((hi.1 r).1 h)
  refine ⟨fun h => ?_, ?_⟩
  · by_cases hh : h = r
    · subst hh; simp [add_opened_rot, hs, is_open]
    · simp [add_opened_rot, hs, is_open, set_state_rots_ne _ _ _ _ hh, hh]
      exact hi.1 h
  · simp [add_opened_rot, hs]
    exact ⟨hr, hi.2⟩

theorem inv_rot_open_finish (B : Backends) (hB : hooks_keep B) (sys : Sys)
    (hs : sys.malloc_ok = true) (cp r : Nat) (m : Mem) (hc : ¬ is_open m r)
    (hi : registry_inv m) : registry_inv (rot_open_finish B sys cp r m).mem := by
  have h2 := inv_link_open sys hs r m hc hi
  unfold rot_open_finish
  simp only
  split
  · next hook hh =>
    have h3 := inv_of_keeps ((hB cp).1 hook hh r _) h2
    split
    · exact inv_rot_close B hB _ _ h3
    · exact inv_of_keeps (keeps_rot_get_position B hB _ _ _ _) h3
  · exact inv_of_keeps (keeps_rot_get_position B hB _ _ _ _) h2

theorem inv_rot_open (B : Backends) (hB : hooks_keep B) (sys : Sys)
    (hs : sys.malloc_ok = true) (rot : Option Nat) (m : Mem) (hi : registry_inv m) :
    registry_inv (rot_open B sys rot m).mem := by
  unfold rot_open
  split
  · exact hi
  · next r =>
    split
    · exact hi
    · next cp _ =>
      split
      · exact hi
      · next hc =>
        have hk := keeps_trans (keeps_set_port m r (fun p => { p with fd := -1 }))
          (keeps_rot_open_port sys r _)
        simp only
        split
        · next status m2 t heq =>
          rw [heq] at hk
          exact inv_of_keeps hk hi
        · next m2 t heq =>
          rw [heq] at hk
          apply inv_rot_open_finish B hB sys hs cp r m2 _ (inv_of_keeps hk hi)
          rw [hk.2 r]
          simpa [is_open] using hc

theorem inv_rot_cleanup (B : Backends) (hB : hooks_keep B) (rot : Option Nat) (m : Mem)
    (hi : registry_inv m) : registry_inv (rot_cleanup B rot m).mem := by
  unfold rot_cleanup
  split
  · exact hi
  · next r =>
    split
    · exact hi
    · simp only
      apply inv_of_keeps (keeps_rot_cleanup_hook B hB r _)
      split
      · exact inv_rot_close B hB _ _ hi
      · exact hi

theorem inv_run_calls (B : Backends) (hB : hooks_keep B) (calls : List Call) :
    ∀ m : Mem, (∀ c ∈ calls, c.insertion_ok) → registry_inv m →
      registry_inv (run_calls B calls m) := by
  induction calls with
  | nil => intro m _ hi; exact hi
  | cons c cs ih =>
    intro m hins hi
    apply ih _ (fun d hd => hins d (List.mem_cons_of_mem _ hd))
    have hc := hins c (List.mem_cons_self _ _)
    cases c with
    | rot_open sys rot => exact inv_rot_open B hB sys hc rot m hi
    | rot_close rot => exact inv_rot_close B hB rot m hi
    | rot_cleanup rot => exact inv_rot_cleanup B hB rot m hi

theorem ex_hooks_keep : hooks_keep (ex_backends ex_caps_hooks) := by
  intro cp
  refine ⟨?_, ?_, ?_, ?_⟩
  · intro f hf r m
    simp only [ex_backends, ex_caps_hooks, Option.some.injEq] at hf
    subst hf
    refine ⟨rfl, fun h => ?_⟩
    by_cases hr : h = r
    · subst hr; simp [is_open]
    · simp [is_open, set_state_rots_ne _ _ _ _ hr]
  · intro f hf r m
    simp only [ex_backends, ex_caps_hooks, Option.some.injEq] at hf
    subst hf
    exact keeps_refl m
  · intro f hf r m
    simp only [ex_backends, ex_caps_hooks, Option.some.injEq] at hf
    subst hf
    refine ⟨rfl, fun h => ?_⟩
    by_cases hr : h = r
    · subst hr; simp [is_open]
    · simp [is_open, set_state_rots_ne _ _ _ _ hr]
  · intro f hf r az el m
    simp only [ex_backends, ex_caps_hooks, Option.some.injEq] at hf
    subst hf
    exact keeps_refl m

/-! ## Lemmas on `rot_close` and `rot_open` -/

theorem rot_close_of_open (B : Backends) (r cp : Nat) (m : Mem)
    (hcaps : (m.rots r).caps = some cp) (ho : is_open m r) :
    rot_close B (some r) m =
      ⟨RIG_OK,
        (remove_opened_rot r (rot_close_port r (rot_close_hook (B.caps_at cp) r m).1).1).2.set_state
          r (fun s => { s with comm_state := 0 }),
        (rot_close_hook (B.caps_at cp) r m).2 ++
          (rot_close_port r (rot_close_hook (B.caps_at cp) r m).1).2⟩ := by
  have ho2 : ¬ (m.rots r).state.comm_state = 0 := ho
  simp [rot_close, hcaps, ho2]

theorem rot_close_port_fd (r : Nat) (m : Mem) :
    ((rot_close_port r m).1.rots r).state.rotport.fd = -1 := by
  unfold rot_close_port
  split
  · simp
  · next h => simpa using h

theorem unlink_close_fields (r : Nat) (m : Mem) :
    let n := (remove_opened_rot r (rot_close_port r m).1).2.set_state r
      (fun s => { s with comm_state := 0 })
    (n.rots r).state.comm_state = 0 ∧ (n.rots r).state.rotport.fd = -1 ∧
      n.opened_rot_list = m.opened_rot_list.erase r := by
  refine ⟨by simp, ?_, ?_⟩
  · simp [remove_rots, rot_close_port_fd]
  · simp [remove_list, (keeps_rot_close_port r m).1]

theorem rot_open_of_closed (B : Backends) (sys : Sys) (r cp : Nat) (m : Mem)
    (hcaps : (m.rots r).caps = some cp) (hc : ¬ is_open m r)
    (hport : (rot_open_port sys r (m.set_port r (fun p => { p with fd := -1 }))).1 = none) :
    rot_open B sys (some r) m =
      ⟨(rot_open_finish B sys cp r
          (rot_open_port sys r (m.set_port r (fun p => { p with fd := -1 }))).2.1).ret,
        (rot_open_finish B sys cp r
          (rot_open_port sys r (m.set_port r (fun p => { p with fd := -1 }))).2.1).mem,
        (rot_open_port sys r (m.set_port r (fun p => { p with fd := -1 }))).2.2 ++
          (rot_open_finish B sys cp r
            (rot_open_port sys r (m.set_port r (fun p => { p with fd := -1 }))).2.1).trace⟩ := by
  have hc2 : (m.rots r).state.comm_state = 0 := by
    simpa [is_open] using hc
  unfold rot_open
  simp only [hcaps, hc2, ne_eq, not_true_eq_false, if_false]
  generalize rot_open_port sys r (m.set_port r (fun p => { p with fd := -1 })) = x at hport
  obtain ⟨o, m2, t⟩ := x
  simp only at hport
  subst hport
  rfl

theorem rot_open_of_port_error (B : Backends) (sys : Sys) (r cp : Nat) (m : Mem) (status : Int)
    (hcaps : (m.rots r).caps = some cp) (hc : ¬ is_open m r)
    (hport : (rot_open_port sys r (m.set_port r (fun p => { p with fd := -1 }))).1
      = some status) :
    rot_open B sys (some r) m =
      ⟨status, (rot_open_port sys r (m.set_port r (fun p => { p with fd := -1 }))).2.1,
        (rot_open_port sys r (m.set_port r (fun p => { p with fd := -1 }))).2.2⟩ := by
  have hc2 : (m.rots r).state.comm_state = 0 := by
    simpa [is_open] using hc
  unfold rot_open
  simp only [hcaps, hc2, ne_eq, not_true_eq_false, if_false]
  generalize rot_open_port sys r (m.set_port r (fun p => { p with fd := -1 })) = x at hport
  obtain ⟨o, m2, t⟩ := x
  simp only at hport
  subst hport
  rfl

theorem rot_open_finish_of_hook_error (B : Backends) (sys : Sys) (cp r : Nat) (m : Mem)
    (hook : Nat → Mem → Int × Mem) (hh : (B.caps_at cp).rot_open = some hook)
    (he : (hook r ((add_opened_rot sys r m).2.set_state r
      (fun s => { s with comm_state := 1 }))).1 ≠ RIG_OK) :
    rot_open_finish B sys cp r m =
      ⟨(hook r ((add_opened_rot sys r m).2.set_state r
          (fun s => { s with comm_state := 1 }))).1,
        (rot_close B (some r) (hook r ((add_opened_rot sys r m).2.set_state r
          (fun s => { s with comm_state := 1 }))).2).mem,
        Event.backend_open r ::
          (rot_close B (some r) (hook r ((add_opened_rot sys r m).2.set_state r
            (fun s => { s with comm_state := 1 }))).2).trace⟩ := by
  unfold rot_open_finish
  simp only [hh]
  rw [if_pos he]

theorem add_list_erase (sys : Sys) (r : Nat) (m : Mem) (hr : r ∉ m.opened_rot_list) :
    (add_opened_rot sys r m).2.opened_rot_list.erase r = m.opened_rot_list := by
  unfold add_opened_rot
  split
  · exact List.erase_of_not_mem hr
  · simp

theorem is_open_hook_input (sys : Sys) (r : Nat) (m : Mem) :
    is_open (rot_open_hook_input sys r m) r := by
  simp [rot_open_hook_input, is_open]

/-! ## Lemmas on `foreach_opened_rot` -/

theorem foreach_loop_visits_initial {D : Type} (cfunc : Nat → D → Int × D) (l : List Nat) :
    ∀ d : D, (foreach_opened_rot_loop cfunc l d).1.map Prod.fst <+: l := by
  induction l with
  | nil => intro d; simp [foreach_opened_rot_loop]
  | cons p rest ih =>
    intro d
    unfold foreach_opened_rot_loop
    split
    · simp only [List.map_cons, List.map_nil]
      exact ⟨rest, rfl⟩
    · simp only [List.map_cons]
      obtain ⟨t, ht⟩ := ih (cfunc p d).2
      exact ⟨t, by simp [ht]⟩

theorem foreach_loop_stop_is_last {D : Type} (cfunc : Nat → D → Int × D) (l : List Nat) :
    ∀ (d : D) (pre : List (Nat × Int)) (v : Nat × Int) (post : List (Nat × Int)),
      (foreach_opened_rot_loop cfunc l d).1 = pre ++ v :: post → v.2 = 0 → post = [] := by
  induction l with
  | nil =>
    intro d pre v post h
    simp [foreach_opened_rot_loop] at h
  | cons p rest ih =>
    intro d pre v post h hv
    unfold foreach_opened_rot_loop at h
    split at h
    · cases pre with
      | nil => simp at h; exact h.2
      | cons x pre2 => simp at h
    · next hne =>
      cases pre with
      | nil =>
        simp only [List.nil_append, List.cons.injEq] at h
        rw [← h.1] at hv
        exact absurd hv hne
      | cons x pre2 =>
        simp only [List.cons_append, List.cons.injEq] at h
        exact ih _ pre2 v post h.2 hv

theorem foreach_loop_all_or_stopped {D : Type} (cfunc : Nat → D → Int × D) (l : List Nat) :
    ∀ d : D, (foreach_opened_rot_loop cfunc l d).1.map Prod.fst = l ∨
      ∃ v, (foreach_opened_rot_loop cfunc l d).1.getLast? = some v ∧ v.2 = 0 := by
  induction l with
  | nil => intro d; left; simp [foreach_opened_rot_loop]
  | cons p rest ih =>
    intro d
    unfold foreach_opened_rot_loop
    split
    · next h0 =>
      right
      exact ⟨(p, (cfunc p d).1), by simp, h0⟩
    · rcases ih (cfunc p d).2 with h | ⟨v, hv, hv0⟩
      · left; simp [h]
      · right
        refine ⟨v, ?_, hv0⟩
        simp only
        rw [List.getLast?_cons, hv]
        simp

theorem foreach_loop_of_pure {D : Type} (cfunc : Nat → D → Int × D) (g : Nat → Int)
    (hg : ∀ p d, (cfunc p d).1 = g p) (l : List Nat) :
    ∀ d : D, (foreach_opened_rot_loop cfunc l d).1.map Prod.fst =
      l.takeWhile (fun p => decide (g p ≠ 0)) ++ (l.dropWhile (fun p => decide (g p ≠ 0))).take 1 := by
  induction l with
  | nil => intro d; simp [foreach_opened_rot_loop]
  | cons p rest ih =>
    intro d
    unfold foreach_opened_rot_loop
    by_cases h0 : g p = 0
    · simp [hg, h0, List.takeWhile_cons, List.dropWhile_cons]
    · simp [hg, h0, List.takeWhile_cons, List.dropWhile_cons, ih]

theorem ex_hooks_keep_fails (caps : rot_caps)
    (ho : caps.rot_open = some (fun _ m => (-8, m)))
    (hc : caps.rot_close = some (fun _ m => (-5, m)))
    (hk : caps.rot_cleanup = none) (hg : caps.get_position = none) :
    hooks_keep (ex_backends caps) := by
  intro cp
  refine ⟨?_, ?_, ?_, ?_⟩
  · intro f hf r m
    simp only [ex_backends, ho, Option.some.injEq] at hf
    subst hf
    exact keeps_refl m
  · intro f hf r m
    simp only [ex_backends, hc, Option.some.injEq] at hf
    subst hf
    exact keeps_refl m
  · intro f hf r m
    simp [ex_backends, hk] at hf
  · intro f hf r az el m
    simp [ex_backends, hg] at hf

/-! ## Lemmas on the calls made -/

theorem rot_close_trace_no_port_open (B : Backends) (rot : Option Nat) (m : Mem) :
    ∀ e ∈ (rot_close B rot m).trace, e.is_port_open = false := by
  intro e he
  unfold rot_close at he
  split at he
  · simp at he
  · split at he
    · simp at he
    · split at he
      · simp at he
      · simp only [List.mem_append] at he
        rcases he with he | he
        · unfold rot_close_hook at he
          split at he
          · simp at he; subst he; rfl
          · simp at he
        · unfold rot_close_port at he
          split at he
          · simp only [List.mem_singleton] at he
            subst he
            split <;> rfl
          · simp at he

theorem rot_get_position_trace_no_port_open (B : Backends) (rot : Option Nat)
    (az : Option azimuth_t) (el : Option elevation_t) (m : Mem) :
    ∀ e ∈ (rot_get_position B rot az el m).trace, e.is_port_open = false := by
  intro e he
  unfold rot_get_position at he
  split at he
  · split at he
    · simp at he
    · split at he
      · simp at he
      · simp at he; subst he; rfl
  · simp at he

theorem rot_open_finish_trace_no_port_open (B : Backends) (sys : Sys) (cp r : Nat) (m : Mem) :
    ∀ e ∈ (rot_open_finish B sys cp r m).trace, e.is_port_open = false := by
  intro e he
  unfold rot_open_finish at he
  simp only at he
  split at he
  · split at he
    · simp only [List.mem_cons] at he
      rcases he with he | he
      · subst he; rfl
      · exact rot_close_trace_no_port_open B _ _ e he
    · simp only [List.mem_cons] at he
      rcases he with he | he
      · subst he; rfl
      · exact rot_get_position_trace_no_port_open B _ _ _ _ e he
  · exact rot_get_position_trace_no_port_open B _ _ _ _ e he

theorem set_port_type_rig (m : Mem) (r : Nat) :
    ((m.set_port r (fun p => { p with fd := -1 })).rots r).state.rotport.type_rig
      = (m.rots r).state.rotport.type_rig := by
  simp

/-! ## Lemmas on `rot_init` -/

theorem rot_init_rot (B : Backends) (sys : Sys) (model : Int) (m : Mem) :
    (rot_init B sys model m).rot =
      match B.rot_get_caps model with
      | none => none
      | some cp =>
        match sys.calloc with
        | none => none
        | some rot =>
          match (B.caps_at cp).rot_init with
          | none => some rot
          | some hook =>
            if (hook rot (rot_init_hook_input B cp rot m)).1 ≠ RIG_OK then none else some rot := by
  unfold rot_init rot_init_hook_input
  cases hc : B.rot_get_caps model with
  | none => rfl
  | some cp =>
    cases ha : sys.calloc with
    | none => rfl
    | some rot =>
      simp only
      cases hh : (B.caps_at cp).rot_init with
      | none => rfl
      | some hook =>
        simp only
        split <;> rfl

/-! ## Lemma on the release of the port -/

/-- The library call by which `rot_close` releases the port, for every open
handle with a descriptor other than -1 and no close hook: `fclose` on the
null stream when there is no stream, `close` on the descriptor when there is
one. -/
theorem rot_close_release_call (B : Backends) (r cp : Nat) (m : Mem)
    (hcaps : (m.rots r).caps = some cp) (ho : is_open m r)
    (hnone : (B.caps_at cp).rot_close = none)
    (hfd : (m.rots r).state.rotport.fd ≠ -1) :
    (rot_close B (some r) m).trace =
      [if (m.rots r).state.rotport.stream = none then Event.fclose none
        else Event.close (m.rots r).state.rotport.fd] := by
  rw [rot_close_of_open B r cp m hcaps ho]
  simp only [rot_close_hook, hnone, rot_close_port, hfd, ne_eq, not_false_eq_true, if_true,
    List.nil_append]
  split
  · next h => rw [h]
  · rfl

/-! ## Lemmas on `rot_cleanup` -/

theorem set_state_caps (m : Mem) (r h : Nat) (f : rot_state → rot_state) :
    ((m.set_state r f).rots h).caps = (m.rots h).caps := by
  by_cases hr : h = r
  · subst hr; simp
  · rw [set_state_rots_ne _ _ _ _ hr]

theorem rot_close_port_caps (r h : Nat) (m : Mem) :
    ((rot_close_port r m).1.rots h).caps = (m.rots h).caps := by
  unfold rot_close_port
  split
  · simp only [Mem.set_port]
    exact set_state_caps _ _ _ _
  · rfl

theorem rot_cleanup_of_closed (B : Backends) (r cp : Nat) (m : Mem)
    (hcaps : (m.rots r).caps = some cp) (hc : ¬ is_open m r) :
    rot_cleanup B (some r) m =
      ⟨RIG_OK, (rot_cleanup_hook B r m).1, (rot_cleanup_hook B r m).2 ++ [Event.free r]⟩ := by
  have hc2 : (m.rots r).state.comm_state = 0 := by simpa [is_open] using hc
  simp [rot_cleanup, hcaps, hc2]

theorem rot_cleanup_of_open (B : Backends) (r cp : Nat) (m : Mem)
    (hcaps : (m.rots r).caps = some cp) (ho : is_open m r) :
    rot_cleanup B (some r) m =
      ⟨RIG_OK, (rot_cleanup_hook B r (rot_close B (some r) m).mem).1,
        (rot_close B (some r) m).trace ++ (rot_cleanup_hook B r (rot_close B (some r) m).mem).2
          ++ [Event.free r]⟩ := by
  have ho2 : ¬ (m.rots r).state.comm_state = 0 := ho
  simp [rot_cleanup, hcaps, ho2]

/-! ## Lemmas on a successful `rot_open` -/

theorem rot_open_port_caps (sys : Sys) (r h : Nat) (m : Mem) :
    ((rot_open_port sys r m).2.1.rots h).caps = (m.rots h).caps := by
  unfold rot_open_port
  simp only
  split_ifs <;> first | rfl | (simp only [Mem.set_port]; exact set_state_caps _ _ _ _)

theorem rot_open_hook_input_list (sys : Sys) (hs : sys.malloc_ok = true) (r : Nat) (m : Mem) :
    (rot_open_hook_input sys r m).opened_rot_list = r :: m.opened_rot_list := by
  unfold rot_open_hook_input
  rw [set_state_list]
  simp only [add_opened_rot, hs, Bool.true_eq_false, if_false]
  rw [(keeps_rot_open_port sys r _).1]
  rfl

theorem rot_open_hook_input_caps (sys : Sys) (r : Nat) (m : Mem) :
    ((rot_open_hook_input sys r m).rots r).caps = (m.rots r).caps := by
  unfold rot_open_hook_input
  rw [set_state_caps]
  have h1 : ∀ n : Mem, ((add_opened_rot sys r n).2.rots r).caps = (n.rots r).caps := by
    intro n
    unfold add_opened_rot
    split <;> rfl
  rw [h1, rot_open_port_caps]
  simp only [Mem.set_port]
  exact set_state_caps _ _ _ _

/-- The shape of `rot_open` when the port opens and the open hook is absent or
returns `RIG_OK`: one position query on the memory left by the hook. -/
theorem rot_open_of_success (B : Backends) (sys : Sys) (r cp : Nat) (m : Mem)
    (hcaps : (m.rots r).caps = some cp) (hc : ¬ is_open m r)
    (hport : (rot_open_port sys r (m.set_port r (fun p => { p with fd := -1 }))).1 = none)
    (hok : ∀ hook, (B.caps_at cp).rot_open = some hook →
      (hook r (rot_open_hook_input sys r m)).1 = RIG_OK) :
    rot_open B sys (some r) m =
      ⟨RIG_OK,
        (rot_get_position B (some r) (some 0) (some 0) (rot_open_query_input B sys cp r m)).mem,
        (rot_open_port sys r (m.set_port r (fun p => { p with fd := -1 }))).2.2 ++
          (rot_open_hook_calls B cp r ++
            (rot_get_position B (some r) (some 0) (some 0)
              (rot_open_query_input B sys cp r m)).trace)⟩ := by
  rw [rot_open_of_closed B sys r cp m hcaps hc hport]
  unfold rot_open_finish rot_open_query_input rot_open_hook_calls
  cases hh : (B.caps_at cp).rot_open with
  | none => rfl
  | some hook =>
    have h1 : (hook r (rot_open_hook_input sys r m)).1 = RIG_OK := hok hook hh
    unfold rot_open_hook_input at h1
    simp only [h1, ne_eq, not_true_eq_false, if_false]
    rfl

theorem rot_get_position_trace_cases (B : Backends) (r : Nat) (az : azimuth_t)
    (el : elevation_t) (m : Mem) :
    ((rot_get_position B (some r) (some az) (some el) m).trace = [] ∨
      (rot_get_position B (some r) (some az) (some el) m).trace
        = [Event.backend_get_position r]) ∧
      (∀ cq g, (m.rots r).caps = some cq → (B.caps_at cq).get_position = some g →
        (rot_get_position B (some r) (some az) (some el) m).trace
          = [Event.backend_get_position r]) := by
  constructor
  · unfold rot_get_position
    simp only
    split
    · left; rfl
    · split
      · left; rfl
      · right; rfl
  · intro cq g hc hg
    simp [rot_get_position, hc, hg]

/-! ## Lemmas on the order of the hook calls in `rot_open` -/

theorem rot_open_port_no_backend_close (sys : Sys) (r : Nat) (m : Mem) :
    (rot_open_port sys r m).2.2.count (Event.backend_close r) = 0 := by
  unfold rot_open_port
  simp only
  split_ifs <;> simp

theorem rot_close_port_no_backend_close (r : Nat) (m : Mem) :
    (rot_close_port r m).2.count (Event.backend_close r) = 0 := by
  unfold rot_close_port
  split
  · split <;> simp
  · simp

theorem rot_open_of_hook_ok (B : Backends) (sys : Sys) (r cp : Nat) (m : Mem)
    (hook : Nat → Mem → Int × Mem) (hcaps : (m.rots r).caps = some cp) (hc : ¬ is_open m r)
    (hport : (rot_open_port sys r (m.set_port r (fun p => { p with fd := -1 }))).1 = none)
    (hh : (B.caps_at cp).rot_open = some hook)
    (hok : (hook r (rot_open_hook_input sys r m)).1 = RIG_OK) :
    rot_open B sys (some r) m =
      ⟨RIG_OK,
        (rot_get_position B (some r) (some 0) (some 0)
          (hook r (rot_open_hook_input sys r m)).2).mem,
        (rot_open_port sys r (m.set_port r (fun p => { p with fd := -1 }))).2.2 ++
          Event.backend_open r ::
            (rot_get_position B (some r) (some 0) (some 0)
              (hook r (rot_open_hook_input sys r m)).2).trace⟩ := by
  rw [rot_open_of_success B sys r cp m hcaps hc hport (fun f hf => by
    rw [hh] at hf
    simp only [Option.some.injEq] at hf
    subst hf
    exact hok)]
  simp [rot_open_query_input, rot_open_hook_calls, hh]

theorem rot_open_of_hook_error (B : Backends) (sys : Sys) (r cp : Nat) (m : Mem)
    (hook : Nat → Mem → Int × Mem) (hcaps : (m.rots r).caps = some cp) (hc : ¬ is_open m r)
    (hport : (rot_open_port sys r (m.set_port r (fun p => { p with fd := -1 }))).1 = none)
    (hh : (B.caps_at cp).rot_open = some hook)
    (he : (hook r (rot_open_hook_input sys r m)).1 ≠ RIG_OK) :
    rot_open B sys (some r) m =
      ⟨(hook r (rot_open_hook_input sys r m)).1,
        (rot_close B (some r) (hook r (rot_open_hook_input sys r m)).2).mem,
        (rot_open_port sys r (m.set_port r (fun p => { p with fd := -1 }))).2.2 ++
          Event.backend_open r ::
            (rot_close B (some r) (hook r (rot_open_hook_input sys r m)).2).trace⟩ := by
  rw [rot_open_of_closed B sys r cp m hcaps hc hport]
  rw [rot_open_finish_of_hook_error B sys cp r _ hook hh he]
  rfl

/-! ## Lemmas on backends that differ in the position outputs -/

theorem rot_close_congr (B1 B2 : Backends)
    (h : ∀ cp, (B1.caps_at cp).rot_close = (B2.caps_at cp).rot_close) (rot : Option Nat)
    (m : Mem) : rot_close B1 rot m = rot_close B2 rot m := by
  have hh : ∀ cp r n, rot_close_hook (B1.caps_at cp) r n = rot_close_hook (B2.caps_at cp) r n := by
    intro cp r n
    unfold rot_close_hook
    rw [h cp]
  unfold rot_close
  cases rot with
  | none => rfl
  | some r =>
    simp only
    cases (m.rots r).caps with
    | none => rfl
    | some cp => simp only [hh]

theorem rot_get_position_congr (B1 B2 : Backends) (h : same_but_position_outputs B1 B2)
    (rot : Option Nat) (az : Option azimuth_t) (el : Option elevation_t) (m : Mem) :
    (rot_get_position B1 rot az el m).mem = (rot_get_position B2 rot az el m).mem ∧
      (rot_get_position B1 rot az el m).trace = (rot_get_position B2 rot az el m).trace := by
  unfold rot_get_position
  split
  · next r a e =>
    cases hc : (m.rots r).caps with
    | none => exact ⟨rfl, rfl⟩
    | some cp =>
      have h3 := (h cp).2.2.1
      have h4 := (h cp).2.2.2 r a e m
      simp only
      cases h1 : (B1.caps_at cp).get_position with
      | none =>
        cases h2 : (B2.caps_at cp).get_position with
        | none => exact ⟨rfl, rfl⟩
        | some g2 => rw [h1, h2] at h3; simp at h3
      | some g1 =>
        cases h2 : (B2.caps_at cp).get_position with
        | none => rw [h1, h2] at h3; simp at h3
        | some g2 =>
          rw [h1, h2] at h4
          exact ⟨h4, rfl⟩
  · exact ⟨rfl, rfl⟩

theorem rot_open_finish_congr (B1 B2 : Backends) (h : same_but_position_outputs B1 B2)
    (sys : Sys) (cp r : Nat) (m : Mem) :
    rot_open_finish B1 sys cp r m = rot_open_finish B2 sys cp r m := by
  have hc := rot_close_congr B1 B2 (fun c => (h c).2.1)
  unfold rot_open_finish
  simp only [← (h cp).1]
  cases (B1.caps_at cp).rot_open with
  | none =>
    simp only
    rw [(rot_get_position_congr B1 B2 h _ _ _ _).1, (rot_get_position_congr B1 B2 h _ _ _ _).2]
  | some hook =>
    simp only
    split
    · rw [hc]
    · rw [(rot_get_position_congr B1 B2 h _ _ _ _).1,
        (rot_get_position_congr B1 B2 h _ _ _ _).2]

theorem rot_open_congr (B1 B2 : Backends) (h : same_but_position_outputs B1 B2)
    (sys : Sys) (rot : Option Nat) (m : Mem) :
    rot_open B1 sys rot m = rot_open B2 sys rot m := by
  unfold rot_open
  cases rot with
  | none => rfl
  | some r =>
    simp only
    cases (m.rots r).caps with
    | none => rfl
    | some cp => simp only [rot_open_finish_congr B1 B2 h]

theorem rot_get_position_same (B1 B2 : Backends) (r : Nat)
    (h : same_but_position_outputs_for r B1 B2) (az : Option azimuth_t)
    (el : Option elevation_t) (m : Mem) :
    (rot_get_position B1 (some r) az el m).trace = (rot_get_position B2 (some r) az el m).trace ∧
      same_handle_and_list r (rot_get_position B1 (some r) az el m).mem
        (rot_get_position B2 (some r) az el m).mem := by
  unfold rot_get_position
  cases az with
  | none => exact ⟨rfl, rfl, rfl⟩
  | some a =>
    cases el with
    | none => exact ⟨rfl, rfl, rfl⟩
    | some e =>
      simp only
      cases hc : (m.rots r).caps with
      | none => exact ⟨rfl, rfl, rfl⟩
      | some cp =>
        have h3 := (h cp).2.2.1
        have h4 := (h cp).2.2.2 a e m
        simp only
        cases h1 : (B1.caps_at cp).get_position with
        | none =>
          cases h2 : (B2.caps_at cp).get_position with
          | none => exact ⟨rfl, rfl, rfl⟩
          | some g2 => rw [h1, h2] at h3; simp at h3
        | some g1 =>
          cases h2 : (B2.caps_at cp).get_position with
          | none => rw [h1, h2] at h3; simp at h3
          | some g2 =>
            rw [h1, h2] at h4
            exact ⟨rfl, h4⟩

theorem rot_open_finish_same (B1 B2 : Backends) (r : Nat)
    (h : same_but_position_outputs_for r B1 B2) (sys : Sys) (cp : Nat) (m : Mem) :
    (rot_open_finish B1 sys cp r m).ret = (rot_open_finish B2 sys cp r m).ret ∧
      (rot_open_finish B1 sys cp r m).trace = (rot_open_finish B2 sys cp r m).trace ∧
      same_handle_and_list r (rot_open_finish B1 sys cp r m).mem
        (rot_open_finish B2 sys cp r m).mem := by
  have hc := rot_close_congr B1 B2 (fun c => (h c).2.1)
  unfold rot_open_finish
  simp only [← (h cp).1]
  cases (B1.caps_at cp).rot_open with
  | none =>
    exact ⟨rfl, (rot_get_position_same B1 B2 r h _ _ _).1,
      (rot_get_position_same B1 B2 r h _ _ _).2⟩
  | some hook =>
    by_cases he : (hook r ((add_opened_rot sys r m).2.set_state r
        (fun s => { s with comm_state := 1 }))).1 ≠ RIG_OK
    · simp only [if_pos he]
      rw [hc]
      exact ⟨trivial, rfl, rfl, rfl⟩
    · simp only [if_neg he]
      refine ⟨trivial, ?_, (rot_get_position_same B1 B2 r h _ _ _).2⟩
      rw [(rot_get_position_same B1 B2 r h _ _ _).1]

theorem rot_open_same (B1 B2 : Backends) (r : Nat)
    (h : same_but_position_outputs_for r B1 B2) (sys : Sys) (m : Mem) :
    (rot_open B1 sys (some r) m).ret = (rot_open B2 sys (some r) m).ret ∧
      (rot_open B1 sys (some r) m).trace = (rot_open B2 sys (some r) m).trace ∧
      same_handle_and_list r (rot_open B1 sys (some r) m).mem
        (rot_open B2 sys (some r) m).mem := by
  unfold rot_open
  simp only
  cases (m.rots r).caps with
  | none => exact ⟨rfl, rfl, rfl, rfl⟩
  | some cp =>
    simp only
    split
    · exact ⟨rfl, rfl, rfl, rfl⟩
    · split
      · exact ⟨rfl, rfl, rfl, rfl⟩
      · next m2 t _ =>
        have hf := rot_open_finish_same B1 B2 r h sys cp m2
        exact ⟨hf.1, by rw [hf.2.1], hf.2.2⟩

theorem rot_open_hook_input_state (sys : Sys) (r : Nat) (m : Mem) :
    ((rot_open_hook_input sys r m).rots r).state.current_az = (m.rots r).state.current_az ∧
      ((rot_open_hook_input sys r m).rots r).state.current_el
        = (m.rots r).state.current_el := by
  have h1 : ∀ n : Mem, (add_opened_rot sys r n).2.rots = n.rots := by
    intro n
    unfold add_opened_rot
    split <;> rfl
  unfold rot_open_hook_input
  rw [set_state_rots_self, h1]
  unfold rot_open_port
  simp only
  split_ifs <;> simp

/-! ## Lemmas on runs that return -/

theorem not_mem_erase_of_count_le_one (r : Nat) (l : List Nat) (h : l.count r ≤ 1) :
    r ∉ l.erase r := by
  intro hm
  have h1 : 0 < (l.erase r).count r := List.count_pos_iff.2 hm
  rw [List.count_erase_self] at h1
  omega

theorem erase_eq_filter_of_count_le_one (r : Nat) (l : List Nat) (h : l.count r ≤ 1) :
    l.erase r = l.filter (fun h => decide (h ≠ r)) := by
  induction l with
  | nil => rfl
  | cons a t ih =>
    by_cases ha : a = r
    · subst ha
      have ht : a ∉ t := by
        intro hm
        have h1 : 0 < t.count a := List.count_pos_iff.2 hm
        rw [List.count_cons_self] at h
        omega
      simp only [List.erase_cons_head, ne_eq, not_true_eq_false, decide_False,
        Bool.false_eq_true, not_false_eq_true, List.filter_cons_of_neg]
      symm
      rw [List.filter_eq_self]
      intro x hx
      simp only [decide_eq_true_eq]
      exact fun hxa => ht (hxa ▸ hx)
    · have hc : t.count r ≤ 1 := by
        rw [List.count_cons_of_ne (fun h2 => ha h2.symm)] at h
        exact h
      simp [List.erase_cons_tail, ha, ih hc]

theorem rot_close_port_calls (r : Nat) (m : Mem)
    (hrel : (m.rots r).state.rotport.releasable) :
    (rot_close_port r m).2 = release_calls (m.rots r).state.rotport := by
  unfold rot_close_port release_calls
  by_cases hfd : (m.rots r).state.rotport.fd = -1
  · simp [hfd]
  · have hs : (m.rots r).state.rotport.stream ≠ none := by
      rcases hrel with h | h
      · exact absurd h hfd
      · exact h
    simp [hfd, hs]

theorem release_calls_no_fclose (p : port_t) : Event.fclose none ∉ release_calls p := by
  unfold release_calls
  split <;> simp

theorem rot_open_port_no_fclose (sys : Sys) (r : Nat) (m : Mem) :
    Event.fclose none ∉ (rot_open_port sys r m).2.2 := by
  unfold rot_open_port
  simp only
  split_ifs <;> simp

theorem rot_close_hook_no_fclose (caps : rot_caps) (r : Nat) (m : Mem) :
    Event.fclose none ∉ (rot_close_hook caps r m).2 := by
  unfold rot_close_hook
  split <;> simp

theorem release_calls_no_backend_close (p : port_t) (r : Nat) :
    (release_calls p).count (Event.backend_close r) = 0 := by
  unfold release_calls
  split <;> simp

theorem rot_get_position_no_fclose (B : Backends) (rot : Option Nat) (az : Option azimuth_t)
    (el : Option elevation_t) (m : Mem) :
    Event.fclose none ∉ (rot_get_position B rot az el m).trace := by
  unfold rot_get_position
  split
  · split
    · simp
    · split <;> simp
  · simp

/-! ## The claims -/

/-- C1. Registry invariant: start from a memory with an empty list of opened
handles and every handle closed, and make any finite sequence of `rot_open`,
`rot_close` and `rot_cleanup` calls on any handles; if the backend hooks leave
the list and every handle's status alone and each insertion into the list
succeeds, then afterwards a handle is in the list if and only if its status is
open, and the list has no duplicates. -/
theorem registry_invariant (B : Backends) (hB : hooks_keep B) (m0 : Mem)
    (hempty : m0.opened_rot_list = []) (hclosed : ∀ h, ¬ is_open m0 h)
    (calls : List Call) (hins : ∀ c ∈ calls, c.insertion_ok) :
    (∀ h, h ∈ (run_calls B calls m0).opened_rot_list ↔ is_open (run_calls B calls m0) h) ∧
      (run_calls B calls m0).opened_rot_list.Nodup := by
  apply inv_run_calls B hB calls m0 hins
  refine ⟨fun h => ?_, ?_⟩
  · rw [hempty]
    simp [hclosed h]
  · rw [hempty]
    exact List.nodup_nil

/-- C1 on `ex_calls` with the hooks of `ex_caps_hooks`. -/
theorem registry_invariant_witness :
    (∀ h, h ∈ (run_calls (ex_backends ex_caps_hooks) ex_calls ex_mem).opened_rot_list ↔
        is_open (run_calls (ex_backends ex_caps_hooks) ex_calls ex_mem) h) ∧
      (run_calls (ex_backends ex_caps_hooks) ex_calls ex_mem).opened_rot_list.Nodup :=
  registry_invariant (ex_backends ex_caps_hooks) ex_hooks_keep ex_mem rfl
    (fun h => by simp [is_open, ex_mem, rot_init_defaults])
    ex_calls (by simp [ex_calls, Call.insertion_ok, ex_sys])

/-- C2 fails on the code as stated, in three ways.  With an open hook that
clears `comm_state` before it fails with `-8`, `rot_open` on the closed serial
handle 1 returns `-8` and leaves the handle in the list with descriptor 5:
`rot_close` refuses a handle that is not open.  On the closed device-file
handle 1 the rollback passes a null stream to `fclose` and `rot_open` does not
return.  And a closed handle that was in the list before the call is in it
afterwards. -/
theorem failed_open_claim_fails :
    (¬ is_open (ex_mem_of ex_caps_forget_fails) 1 ∧
      (rot_open (ex_backends ex_caps_forget_fails) ex_sys (some 1)
        (ex_mem_of ex_caps_forget_fails)).ret = -8 ∧
      1 ∈ (rot_open (ex_backends ex_caps_forget_fails) ex_sys (some 1)
        (ex_mem_of ex_caps_forget_fails)).mem.opened_rot_list ∧
      ((rot_open (ex_backends ex_caps_forget_fails) ex_sys (some 1)
        (ex_mem_of ex_caps_forget_fails)).mem.rots 1).state.rotport.fd = 5) ∧
    (¬ is_open (ex_mem_of ex_caps_device_fails) 1 ∧
      Event.backend_open 1 ∈ (rot_open (ex_backends ex_caps_device_fails) ex_sys (some 1)
        (ex_mem_of ex_caps_device_fails)).trace ∧
      ¬ (rot_open (ex_backends ex_caps_device_fails) ex_sys (some 1)
        (ex_mem_of ex_caps_device_fails)).returns) ∧
    (¬ is_open ex_mem_listed_closed 1 ∧
      (rot_open (ex_backends ex_caps_open_fails) ex_sys (some 1) ex_mem_listed_closed).ret
        = -8 ∧
      1 ∈ (rot_open (ex_backends ex_caps_open_fails) ex_sys (some 1)
        ex_mem_listed_closed).mem.opened_rot_list) := by
  refine ⟨⟨?_, ?_, ?_, ?_⟩, ⟨?_, ?_, ?_⟩, ?_, ?_, ?_⟩
  all_goals decide

/-- C2, amended. A failed open hook is rolled back: take a closed handle that is
not in the list, whose port opens and whose open hook returns `e` different
from `RIG_OK`; let the backend hooks leave the list and every handle's status
alone, let the open hook leave the handle's descriptor reference in place, and
let the port be releasable when the rollback comes to release it (descriptor
-1, or a stream, so that `fclose` is not called on a null stream).  Then
`rot_open` returns, and returns exactly `e`; afterwards the handle is not in
the list, the list is what it was before the call, the handle's `comm_state`
is 0 and its `fd` is -1. -/
theorem failed_open_rolled_back (B : Backends) (hB : hooks_keep B) (sys : Sys) (r cp : Nat)
    (m : Mem) (hook : Nat → Mem → Int × Mem) (e : Int)
    (hcaps : (m.rots r).caps = some cp) (hclosed : ¬ is_open m r)
    (hreg : r ∉ m.opened_rot_list)
    (hport : (rot_open_port sys r (m.set_port r (fun p => { p with fd := -1 }))).1 = none)
    (hhook : (B.caps_at cp).rot_open = some hook)
    (he : (hook r (rot_open_hook_input sys r m)).1 = e) (hne : e ≠ RIG_OK)
    (hkc : ((hook r (rot_open_hook_input sys r m)).2.rots r).caps = some cp)
    (hrel : (rot_open_rollback_port B sys cp r hook m).releasable) :
    (rot_open B sys (some r) m).returns ∧
      (rot_open B sys (some r) m).ret = e ∧
      r ∉ (rot_open B sys (some r) m).mem.opened_rot_list ∧
      (rot_open B sys (some r) m).mem.opened_rot_list = m.opened_rot_list ∧
      ((rot_open B sys (some r) m).mem.rots r).state.comm_state = 0 ∧
      ((rot_open B sys (some r) m).mem.rots r).state.rotport.fd = -1 := by
  have hne2 : (hook r (rot_open_hook_input sys r m)).1 ≠ RIG_OK := by rw [he]; exact hne
  have hk := (hB cp).1 hook hhook r (rot_open_hook_input sys r m)
  have ho : is_open (hook r (rot_open_hook_input sys r m)).2 r :=
    (hk.2 r).2 (is_open_hook_input sys r m)
  have hopen := rot_open_of_hook_error B sys r cp m hook hcaps hclosed hport hhook hne2
  have hcl := rot_close_of_open B r cp _ hkc ho
  have hlist : ((remove_opened_rot r (rot_close_port r
      (rot_close_hook (B.caps_at cp) r (hook r (rot_open_hook_input sys r m)).2).1).1).2.set_state
        r (fun s => { s with comm_state := 0 })).opened_rot_list = m.opened_rot_list := by
    rw [(unlink_close_fields r _).2.2, (keeps_rot_close_hook B hB cp r _).1, hk.1]
    unfold rot_open_hook_input
    rw [set_state_list, add_list_erase sys r _ (by
      rw [(keeps_rot_open_port sys r _).1]; exact hreg)]
    rw [(keeps_rot_open_port sys r _).1]
    rfl
  refine ⟨?_, ?_, ?_, ?_, ?_, ?_⟩
  · unfold Out.returns
    rw [hopen, hcl]
    simp only [List.mem_append, List.mem_cons, reduceCtorEq, false_or, not_or]
    refine ⟨rot_open_port_no_fclose sys r _, rot_close_hook_no_fclose _ r _, ?_⟩
    rw [rot_close_port_calls r _ hrel]
    exact release_calls_no_fclose _
  · rw [hopen]
    exact he
  · rw [hopen, hcl]
    simp only
    rw [hlist]
    exact hreg
  · rw [hopen, hcl]
    exact hlist
  · rw [hopen, hcl]
    exact (unlink_close_fields r _).1
  · rw [hopen, hcl]
    exact (unlink_close_fields r _).2.1

/-- C2, amended, on a serial handle: `serial_open` succeeds with descriptor 5 and
stream 9, the open hook fails with `-8`, the rollback releases the descriptor,
and the handle ends closed with descriptor -1. -/
theorem failed_open_rolled_back_witness :
    (rot_open (ex_backends ex_caps_serial_fails) ex_sys (some 1) ex_mem_serial).returns ∧
      (rot_open (ex_backends ex_caps_serial_fails) ex_sys (some 1) ex_mem_serial).ret = -8 ∧
      1 ∉ (rot_open (ex_backends ex_caps_serial_fails) ex_sys (some 1)
        ex_mem_serial).mem.opened_rot_list ∧
      (rot_open (ex_backends ex_caps_serial_fails) ex_sys (some 1)
        ex_mem_serial).mem.opened_rot_list = ex_mem_serial.opened_rot_list ∧
      ((rot_open (ex_backends ex_caps_serial_fails) ex_sys (some 1)
        ex_mem_serial).mem.rots 1).state.comm_state = 0 ∧
      ((rot_open (ex_backends ex_caps_serial_fails) ex_sys (some 1)
        ex_mem_serial).mem.rots 1).state.rotport.fd = -1 :=
  failed_open_rolled_back (ex_backends ex_caps_serial_fails)
    (ex_hooks_keep_fails ex_caps_serial_fails rfl rfl rfl rfl) ex_sys 1 100 ex_mem_serial
    (fun _ m => (-8, m)) (-8) rfl (by decide) (by decide) rfl rfl rfl (by decide) rfl
    (by decide)

/-- C3. Wrong-status calls are rejected: on a handle that is already open
`rot_open` returns `-RIG_EINVAL`, and on a handle that is not open `rot_close`
returns `-RIG_EINVAL` (the code the specification calls InvalidState); in both
cases nothing outside the frontend is called, so no backend hook runs, and the
memory, with the handle's status and the list, is left as it was. -/
theorem wrong_status_rejected (B : Backends) (sys : Sys) (r : Nat) (m : Mem) :
    (is_open m r → rot_open B sys (some r) m = ⟨- RIG_EINVAL, m, []⟩) ∧
      (¬ is_open m r → rot_close B (some r) m = ⟨- RIG_EINVAL, m, []⟩) := by
  constructor
  · intro ho
    have ho2 : ¬ (m.rots r).state.comm_state = 0 := ho
    unfold rot_open
    simp only [ho2, ne_eq, not_false_eq_true, if_true]
    split <;> rfl
  · intro hc
    have hc2 : (m.rots r).state.comm_state = 0 := by simpa [is_open] using hc
    unfold rot_close
    simp only [hc2, if_true]
    split <;> rfl

/-- C3 on the open handle 1 of `ex_mem_open` and the closed handle 1 of `ex_mem`,
with a backend that has open and close hooks. -/
theorem wrong_status_rejected_witness :
    rot_open (ex_backends ex_caps_hooks) ex_sys (some 1) ex_mem_open
        = ⟨- RIG_EINVAL, ex_mem_open, []⟩ ∧
      rot_close (ex_backends ex_caps_hooks) (some 1) ex_mem = ⟨- RIG_EINVAL, ex_mem, []⟩ :=
  ⟨(wrong_status_rejected (ex_backends ex_caps_hooks) ex_sys 1 ex_mem_open).1 (by decide),
    (wrong_status_rejected (ex_backends ex_caps_hooks) ex_sys 1 ex_mem).2 (by decide)⟩

/-- C4. `foreach_opened_rot` visits in list order, most recently opened first,
and stops at the first stop signal: for every list of opened handles and every
visitor it returns `RIG_OK`; the handles visited are an initial segment of the
list, in list order; a visit on which the visitor returns 0 is the last visit;
and either the whole list was visited or the last visit returned 0.  For a
visitor whose result depends on the handle only, the handles visited are those
before the first one with result 0, followed by that one.  Handles 1, 2, 3
opened in that order are visited 3, 2, 1, and when the visitor signals stop on
2, handle 1 is not visited and the result is still `RIG_OK`. -/
theorem foreach_visits_in_order_and_stops {D : Type} (cfunc : Nat → D → Int × D) (data : D)
    (m : Mem) :
    (foreach_opened_rot cfunc data m).1 = RIG_OK ∧
      (foreach_opened_rot cfunc data m).2.1.map Prod.fst <+: m.opened_rot_list ∧
      (∀ pre v post, (foreach_opened_rot cfunc data m).2.1 = pre ++ v :: post →
        v.2 = 0 → post = []) ∧
      ((foreach_opened_rot cfunc data m).2.1.map Prod.fst = m.opened_rot_list ∨
        ∃ v, (foreach_opened_rot cfunc data m).2.1.getLast? = some v ∧ v.2 = 0) ∧
      (∀ g : Nat → Int, (∀ p d, (cfunc p d).1 = g p) →
        (foreach_opened_rot cfunc data m).2.1.map Prod.fst =
          m.opened_rot_list.takeWhile (fun p => decide (g p ≠ 0)) ++
            (m.opened_rot_list.dropWhile (fun p => decide (g p ≠ 0))).take 1) ∧
      (run_calls (ex_backends ex_caps) ex_calls_abc ex_mem).opened_rot_list = [3, 2, 1] ∧
      foreach_opened_rot (fun _ (d : Unit) => (1, d)) ()
          (run_calls (ex_backends ex_caps) ex_calls_abc ex_mem)
        = (RIG_OK, [(3, 1), (2, 1), (1, 1)], ()) ∧
      foreach_opened_rot (fun p (d : Unit) => (if p = 2 then 0 else 1, d)) ()
          (run_calls (ex_backends ex_caps) ex_calls_abc ex_mem)
        = (RIG_OK, [(3, 1), (2, 0)], ()) := by
  refine ⟨rfl, foreach_loop_visits_initial cfunc _ data,
    foreach_loop_stop_is_last cfunc _ data, foreach_loop_all_or_stopped cfunc _ data,
    fun g hg => foreach_loop_of_pure cfunc g hg _ data, by decide, by decide, by decide⟩

/-- C5 fails on the code. The claim: with a descriptor other than -1, `rot_close`
releases the stream when one exists and the raw descriptor otherwise.  The code
tests `!rs->rotport.stream` the other way round.  On the serial handle opened
by `rot_open` (descriptor 5, stream 9) `rot_close` calls `close(5)` and leaves
the stream unreleased; on the device-file handle opened by `rot_open`
(descriptor 4, no stream) it calls `fclose` on the absent stream. -/
theorem rot_close_release_inverted :
    (is_open ex_mem_serial_opened 1 ∧
      (ex_mem_serial_opened.rots 1).state.rotport.fd = 5 ∧
      (ex_mem_serial_opened.rots 1).state.rotport.stream = some 9 ∧
      (rot_close (ex_backends ex_caps_serial) (some 1) ex_mem_serial_opened).trace
        = [Event.close 5]) ∧
    (is_open ex_mem_device_opened 1 ∧
      (ex_mem_device_opened.rots 1).state.rotport.fd = 4 ∧
      (ex_mem_device_opened.rots 1).state.rotport.stream = none ∧
      (rot_close (ex_backends ex_caps_device) (some 1) ex_mem_device_opened).trace
        = [Event.fclose none]) := by
  unfold ex_mem_serial_opened ex_mem_device_opened
  refine ⟨⟨?_, ?_, ?_, ?_⟩, ?_, ?_, ?_, ?_⟩
  all_goals decide

/-- C6. Unsupported position operations: when the handle's descriptor has no
`set_position`, `rot_set_position` returns `-RIG_ENAVAIL`, calls nothing outside
the frontend and leaves the memory, hence the handle state with its last known
azimuth and elevation, as it was; when the descriptor has no `get_position`,
`rot_get_position` with non-null outputs does the same and leaves the output
locations as they were. -/
theorem position_unsupported (B : Backends) (r cp : Nat) (m : Mem) (az : azimuth_t)
    (el : elevation_t) (hcaps : (m.rots r).caps = some cp) :
    ((B.caps_at cp).set_position = none →
        rot_set_position B (some r) az el m = ⟨- RIG_ENAVAIL, m, []⟩) ∧
      ((B.caps_at cp).get_position = none →
        rot_get_position B (some r) (some az) (some el) m
          = ⟨- RIG_ENAVAIL, m, [], some az, some el⟩) := by
  constructor
  · intro hs
    simp [rot_set_position, hcaps, hs]
  · intro hg
    simp [rot_get_position, hcaps, hg]

/-- C6 on handle 1 of `ex_mem`, whose descriptor `ex_caps` has neither operation. -/
theorem position_unsupported_witness :
    rot_set_position (ex_backends ex_caps) (some 1) 270 30 ex_mem
        = ⟨- RIG_ENAVAIL, ex_mem, []⟩ ∧
      rot_get_position (ex_backends ex_caps) (some 1) (some 270) (some 30) ex_mem
        = ⟨- RIG_ENAVAIL, ex_mem, [], some 270, some 30⟩ :=
  ⟨(position_unsupported (ex_backends ex_caps) 1 100 ex_mem 270 30 rfl).1 rfl,
    (position_unsupported (ex_backends ex_caps) 1 100 ex_mem 270 30 rfl).2 rfl⟩

/-- C7. Dispatch of `rot_open` on the port type, for a closed handle with a
capability descriptor; `m1` below is the memory after line 252 (`fd = -1`).
With type none or RPC the switch is left without any call and `rot_open`
continues with registration, and its whole run opens no transport.  With the
network type `rot_open` returns `-RIG_ENIMPL`, and with a type that is none of
serial, device, none, RPC, network it returns `-RIG_EINVAL`; in these two cases
nothing outside the frontend is called, so no backend hook runs, and the memory
left is `m1`, in which the handle is still closed and the list is unchanged. -/
theorem port_type_dispatch (B : Backends) (sys : Sys) (r cp : Nat) (m : Mem)
    (hcaps : (m.rots r).caps = some cp) (hclosed : ¬ is_open m r) :
    (((m.rots r).state.rotport.type_rig = RIG_PORT_NONE ∨
        (m.rots r).state.rotport.type_rig = RIG_PORT_RPC) →
      rot_open_port sys r (m.set_port r (fun p => { p with fd := -1 }))
          = (none, m.set_port r (fun p => { p with fd := -1 }), []) ∧
        rot_open B sys (some r) m
          = rot_open_finish B sys cp r (m.set_port r (fun p => { p with fd := -1 })) ∧
        ∀ e ∈ (rot_open B sys (some r) m).trace, e.is_port_open = false) ∧
      ((m.rots r).state.rotport.type_rig = RIG_PORT_NETWORK →
        rot_open B sys (some r) m
          = ⟨- RIG_ENIMPL, m.set_port r (fun p => { p with fd := -1 }), []⟩) ∧
      ((m.rots r).state.rotport.type_rig ≠ RIG_PORT_SERIAL →
        (m.rots r).state.rotport.type_rig ≠ RIG_PORT_DEVICE →
        (m.rots r).state.rotport.type_rig ≠ RIG_PORT_NONE →
        (m.rots r).state.rotport.type_rig ≠ RIG_PORT_RPC →
        (m.rots r).state.rotport.type_rig ≠ RIG_PORT_NETWORK →
        rot_open B sys (some r) m
          = ⟨- RIG_EINVAL, m.set_port r (fun p => { p with fd := -1 }), []⟩) ∧
      ¬ is_open (m.set_port r (fun p => { p with fd := -1 })) r ∧
      (m.set_port r (fun p => { p with fd := -1 })).opened_rot_list = m.opened_rot_list := by
  refine ⟨fun hty => ?_, fun hty => ?_, fun h1 h2 h3 h4 h5 => ?_, ?_, rfl⟩
  · have hp : rot_open_port sys r (m.set_port r (fun p => { p with fd := -1 }))
        = (none, m.set_port r (fun p => { p with fd := -1 }), []) := by
      unfold rot_open_port
      simp only [set_port_type_rig]
      rcases hty with hty | hty <;>
        simp [hty, RIG_PORT_NONE, RIG_PORT_RPC, RIG_PORT_SERIAL, RIG_PORT_DEVICE]
    have ho : rot_open B sys (some r) m
        = rot_open_finish B sys cp r (m.set_port r (fun p => { p with fd := -1 })) := by
      rw [rot_open_of_closed B sys r cp m hcaps hclosed (by rw [hp]), hp]
      simp
    refine ⟨hp, ho, ?_⟩
    rw [ho]
    exact rot_open_finish_trace_no_port_open B sys cp r _
  · have hp : rot_open_port sys r (m.set_port r (fun p => { p with fd := -1 }))
        = (some (- RIG_ENIMPL), m.set_port r (fun p => { p with fd := -1 }), []) := by
      unfold rot_open_port
      simp only [set_port_type_rig]
      simp [hty, RIG_PORT_NETWORK, RIG_PORT_NONE, RIG_PORT_RPC, RIG_PORT_SERIAL,
        RIG_PORT_DEVICE]
    rw [rot_open_of_port_error B sys r cp m (- RIG_ENIMPL) hcaps hclosed (by rw [hp]), hp]
  · have hp : rot_open_port sys r (m.set_port r (fun p => { p with fd := -1 }))
        = (some (- RIG_EINVAL), m.set_port r (fun p => { p with fd := -1 }), []) := by
      unfold rot_open_port
      simp only [set_port_type_rig]
      simp [h1, h2, h3, h4, h5]
    rw [rot_open_of_port_error B sys r cp m (- RIG_EINVAL) hcaps hclosed (by rw [hp]), hp]
  · rw [(keeps_set_port m r _).2 r]
    exact hclosed

/-- C7 on handle 1 with port type none, network and 4; the descriptors of the
last two have an open hook, which is not called. -/
theorem port_type_dispatch_witness :
    (rot_open (ex_backends ex_caps) ex_sys (some 1) ex_mem
        = rot_open_finish (ex_backends ex_caps) ex_sys 100 1
            (ex_mem.set_port 1 (fun p => { p with fd := -1 })) ∧
      (rot_open (ex_backends ex_caps) ex_sys (some 1) ex_mem).ret = RIG_OK) ∧
      rot_open (ex_backends ex_caps_network) ex_sys (some 1) (ex_mem_of ex_caps_network)
        = ⟨- RIG_ENIMPL, (ex_mem_of ex_caps_network).set_port 1 (fun p => { p with fd := -1 }),
            []⟩ ∧
      rot_open (ex_backends ex_caps_other) ex_sys (some 1) (ex_mem_of ex_caps_other)
        = ⟨- RIG_EINVAL, (ex_mem_of ex_caps_other).set_port 1 (fun p => { p with fd := -1 }),
            []⟩ :=
  ⟨⟨((port_type_dispatch (ex_backends ex_caps) ex_sys 1 100 ex_mem rfl (by decide)).1
        (Or.inl rfl)).2.1, by decide⟩,
    (port_type_dispatch (ex_backends ex_caps_network) ex_sys 1 100 (ex_mem_of ex_caps_network)
      rfl (by decide)).2.1 rfl,
    (port_type_dispatch (ex_backends ex_caps_other) ex_sys 1 100 (ex_mem_of ex_caps_other)
      rfl (by decide)).2.2.1 (by decide) (by decide) (by decide) (by decide) (by decide)⟩

/-- C8 fails on the code as stated, in three ways.  On the open device-file
handle that `rot_open` produces (descriptor 4, no stream) `rot_close` passes a
null stream to `fclose` and does not return.  With a close hook that puts the
handle into the list once more, and with a handle listed twice, `rot_close`
returns `RIG_OK` and the handle is still in the list. -/
theorem close_claim_fails :
    (is_open ex_mem_device_hooks_opened 1 ∧
      (rot_close (ex_backends ex_caps_device_hooks) (some 1) ex_mem_device_hooks_opened).trace
        = [Event.backend_close 1, Event.fclose none] ∧
      ¬ (rot_close (ex_backends ex_caps_device_hooks) (some 1)
        ex_mem_device_hooks_opened).returns) ∧
    (is_open ex_mem_open 1 ∧
      (rot_close (ex_backends ex_caps_relist) (some 1) ex_mem_open).ret = RIG_OK ∧
      1 ∈ (rot_close (ex_backends ex_caps_relist) (some 1) ex_mem_open).mem.opened_rot_list) ∧
    (is_open ex_mem_listed_twice 1 ∧
      (rot_close (ex_backends ex_caps_hooks) (some 1) ex_mem_listed_twice).ret = RIG_OK ∧
      1 ∈ (rot_close (ex_backends ex_caps_hooks) (some 1)
        ex_mem_listed_twice).mem.opened_rot_list) := by
  unfold ex_mem_device_hooks_opened
  refine ⟨⟨?_, ?_, ?_⟩, ⟨?_, ?_, ?_⟩, ?_, ?_, ?_⟩
  all_goals decide

/-- C8, amended. The close hook's result is ignored: take an open handle that
occurs at most once in the list, whose descriptor has a close hook that leaves
the list alone and leaves the handle's port releasable (descriptor -1, or a
stream, so that `fclose` is not called on a null stream).  Then, whatever the
hook returns, `rot_close` returns, its result is `RIG_OK`, its calls are the
hook and then the release of the descriptor when that is not -1, and
afterwards the handle's `comm_state` is 0, its `fd` is -1 and the handle is not
in the list. -/
theorem close_hook_result_ignored (B : Backends) (r cp : Nat) (m : Mem)
    (hook : Nat → Mem → Int × Mem) (hcaps : (m.rots r).caps = some cp) (ho : is_open m r)
    (hhook : (B.caps_at cp).rot_close = some hook)
    (hlist : (hook r m).2.opened_rot_list = m.opened_rot_list)
    (honce : m.opened_rot_list.count r ≤ 1)
    (hrel : ((hook r m).2.rots r).state.rotport.releasable) :
    (rot_close B (some r) m).returns ∧
      (rot_close B (some r) m).ret = RIG_OK ∧
      (rot_close B (some r) m).trace =
        Event.backend_close r :: release_calls ((hook r m).2.rots r).state.rotport ∧
      ((rot_close B (some r) m).mem.rots r).state.comm_state = 0 ∧
      ((rot_close B (some r) m).mem.rots r).state.rotport.fd = -1 ∧
      r ∉ (rot_close B (some r) m).mem.opened_rot_list := by
  have hh : rot_close_hook (B.caps_at cp) r m = ((hook r m).2, [Event.backend_close r]) := by
    simp [rot_close_hook, hhook]
  have ht : (rot_close B (some r) m).trace =
      Event.backend_close r :: release_calls ((hook r m).2.rots r).state.rotport := by
    rw [rot_close_of_open B r cp m hcaps ho, hh]
    simp only
    rw [rot_close_port_calls r _ hrel]
    rfl
  refine ⟨?_, ?_, ht, ?_, ?_, ?_⟩
  · unfold Out.returns
    rw [ht]
    simp only [List.mem_cons, reduceCtorEq, false_or]
    exact release_calls_no_fclose _
  · rw [rot_close_of_open B r cp m hcaps ho]
  · rw [rot_close_of_open B r cp m hcaps ho]
    exact (unlink_close_fields r _).1
  · rw [rot_close_of_open B r cp m hcaps ho]
    exact (unlink_close_fields r _).2.1
  · rw [rot_close_of_open B r cp m hcaps ho]
    simp only
    rw [(unlink_close_fields r _).2.2, hh]
    simp only
    rw [hlist]
    exact not_mem_erase_of_count_le_one r _ honce

/-- C8, amended, on the open serial handle that `rot_open` produces (descriptor
5, stream 9), whose close hook returns `-5`: the descriptor is released. -/
theorem close_hook_result_ignored_witness :
    (rot_close (ex_backends ex_caps_serial_hooks) (some 1) ex_mem_serial_hooks_opened).returns ∧
      (rot_close (ex_backends ex_caps_serial_hooks) (some 1) ex_mem_serial_hooks_opened).ret
        = RIG_OK ∧
      (rot_close (ex_backends ex_caps_serial_hooks) (some 1) ex_mem_serial_hooks_opened).trace
        = [Event.backend_close 1, Event.close 5] ∧
      1 ∉ (rot_close (ex_backends ex_caps_serial_hooks) (some 1)
        ex_mem_serial_hooks_opened).mem.opened_rot_list :=
  ⟨(close_hook_result_ignored (ex_backends ex_caps_serial_hooks) 1 100
      ex_mem_serial_hooks_opened (fun _ m => (-5, m)) (by decide) (by decide) rfl rfl
      (by decide) (by decide)).1,
    (close_hook_result_ignored (ex_backends ex_caps_serial_hooks) 1 100
      ex_mem_serial_hooks_opened (fun _ m => (-5, m)) (by decide) (by decide) rfl rfl
      (by decide) (by decide)).2.1,
    by decide,
    (close_hook_result_ignored (ex_backends ex_caps_serial_hooks) 1 100
      ex_mem_serial_hooks_opened (fun _ m => (-5, m)) (by decide) (by decide) rfl rfl
      (by decide) (by decide)).2.2.2.2.2⟩

/-- What `rot_init` does for a known model whose descriptor has no init hook,
when `calloc` succeeds: it returns the new address, and the handle there has
the descriptor reference, `comm_state` 0, `fd` -1, the descriptor's port type,
serial and timing values, the maximum serial rate, the default path, and the
descriptor's `min_az` and `min_el`; `max_az` and `max_el` are the zeroes of
`calloc`. -/
theorem rot_init_without_hook (B : Backends) (sys : Sys) (model : Int) (m : Mem) (cp rot : Nat)
    (hcaps : B.rot_get_caps model = some cp) (halloc : sys.calloc = some rot)
    (hinit : (B.caps_at cp).rot_init = none) :
    (rot_init B sys model m).rot = some rot ∧
      ((rot_init B sys model m).mem.rots rot).caps = some cp ∧
      ((rot_init B sys model m).mem.rots rot).state =
        { min_az := (B.caps_at cp).min_az, max_az := 0
          min_el := (B.caps_at cp).min_el, max_el := 0
          current_az := 0, current_el := 0
          rotport :=
            { type_rig := (B.caps_at cp).port_type, fd := -1, stream := none
              write_delay := (B.caps_at cp).write_delay
              post_write_delay := (B.caps_at cp).post_write_delay
              timeout := (B.caps_at cp).timeout, retry := (B.caps_at cp).retry
              pathname := DEFAULT_SERIAL_PORT.take FILPATHLEN
              parm_serial_rate := (B.caps_at cp).serial_rate_max
              parm_serial_data_bits := (B.caps_at cp).serial_data_bits
              parm_serial_stop_bits := (B.caps_at cp).serial_stop_bits
              parm_serial_parity := (B.caps_at cp).serial_parity
              parm_serial_handshake := (B.caps_at cp).serial_handshake }
          comm_state := 0
          priv := none } := by
  simp [rot_init, hcaps, halloc, hinit, rot_init_defaults, zero_ROT]

set_option maxRecDepth 4000 in
/-- C9 fails on the code. The claim: the handle returned by `rot_init` has its
azimuth and elevation bounds equal to the descriptor's.  Lines 191-194 assign
`min_el` twice and `min_az` twice and never `max_el` or `max_az`.  For the model
of `ex_caps_bounds` (bounds -180..180 and -5..90, no init hook) the handle has
every other default of the claim, and `min_az` -180 and `min_el` -5, but
`max_az` and `max_el` are 0, not 180 and 90. -/
theorem rot_init_max_bounds_not_set :
    (rot_init (ex_backends ex_caps_bounds) ex_sys 1 ex_mem_blank).rot = some 1 ∧
      ex_init_handle.caps = (ex_backends ex_caps_bounds).rot_get_caps 1 ∧
      ex_init_handle.state.comm_state = 0 ∧
      ex_init_handle.state.rotport.fd = -1 ∧
      ex_init_handle.state.rotport.type_rig = ex_caps_bounds.port_type ∧
      ex_init_handle.state.rotport.parm_serial_data_bits = ex_caps_bounds.serial_data_bits ∧
      ex_init_handle.state.rotport.parm_serial_stop_bits = ex_caps_bounds.serial_stop_bits ∧
      ex_init_handle.state.rotport.parm_serial_parity = ex_caps_bounds.serial_parity ∧
      ex_init_handle.state.rotport.parm_serial_handshake = ex_caps_bounds.serial_handshake ∧
      ex_init_handle.state.rotport.write_delay = ex_caps_bounds.write_delay ∧
      ex_init_handle.state.rotport.post_write_delay = ex_caps_bounds.post_write_delay ∧
      ex_init_handle.state.rotport.timeout = ex_caps_bounds.timeout ∧
      ex_init_handle.state.rotport.retry = ex_caps_bounds.retry ∧
      ex_init_handle.state.rotport.parm_serial_rate = ex_caps_bounds.serial_rate_max ∧
      ex_init_handle.state.rotport.pathname = "/dev/rotator" ∧
      ex_init_handle.state.min_az = ex_caps_bounds.min_az ∧
      ex_init_handle.state.min_el = ex_caps_bounds.min_el ∧
      ex_init_handle.state.max_az = 0 ∧ ex_caps_bounds.max_az = 180 ∧
      ex_init_handle.state.max_el = 0 ∧ ex_caps_bounds.max_el = 90 ∧
      ex_init_handle.state.max_az ≠ ex_caps_bounds.max_az ∧
      ex_init_handle.state.max_el ≠ ex_caps_bounds.max_el := by
  unfold ex_init_handle
  repeat' constructor
  all_goals decide

/-- C10. `rot_init` returns no half-constructed handle: for an unknown model it
returns `NULL`; when the init hook returns a code other than `RIG_OK` it returns
`NULL`; and it returns a handle `h` exactly when the model is known, `calloc`
returned `h`, and the init hook is absent or returns `RIG_OK` on that handle. -/
theorem rot_init_no_half_constructed (B : Backends) (sys : Sys) (model : Int) (m : Mem) :
    (B.rot_get_caps model = none → (rot_init B sys model m).rot = none) ∧
      (∀ cp rot hook, B.rot_get_caps model = some cp → sys.calloc = some rot →
        (B.caps_at cp).rot_init = some hook →
        (hook rot (rot_init_hook_input B cp rot m)).1 ≠ RIG_OK →
        (rot_init B sys model m).rot = none) ∧
      (∀ h, (rot_init B sys model m).rot = some h ↔
        ∃ cp, B.rot_get_caps model = some cp ∧ sys.calloc = some h ∧
          ((B.caps_at cp).rot_init = none ∨
            ∃ hook, (B.caps_at cp).rot_init = some hook ∧
              (hook h (rot_init_hook_input B cp h m)).1 = RIG_OK)) := by
  refine ⟨fun hn => ?_, fun cp rot hook hc ha hh he => ?_, fun h => ?_⟩
  · simp [rot_init, hn]
  · rw [rot_init_rot, hc, ha]
    simp only [hh, he, ne_eq, not_false_eq_true, if_true]
  · rw [rot_init_rot]
    cases hc : B.rot_get_caps model with
    | none => simp
    | some cp =>
      cases ha : sys.calloc with
      | none => simp
      | some rot =>
        simp only [Option.some.injEq, exists_eq_left']
        cases hh : (B.caps_at cp).rot_init with
        | none => simp
        | some hook =>
          simp only [Option.some.injEq, exists_eq_left', false_or, reduceCtorEq]
          by_cases he : (hook rot (rot_init_hook_input B cp rot m)).1 = RIG_OK
          · simp only [he, ne_eq, not_true_eq_false, if_false, Option.some.injEq]
            constructor
            · intro hr
              subst hr
              exact ⟨rfl, he⟩
            · rintro ⟨hr, _⟩
              exact hr
          · simp only [he, ne_eq, not_false_eq_true, if_true]
            constructor
            · intro hr
              cases hr
            · rintro ⟨hr, hok⟩
              subst hr
              exact absurd hok he

/-- C10 on model 2, which the registry does not know, on a model whose init hook
fails with `-3`, and on a model whose init hook succeeds. -/
theorem rot_init_no_half_constructed_witness :
    (rot_init (ex_backends ex_caps) ex_sys 2 ex_mem_blank).rot = none ∧
      (rot_init (ex_backends ex_caps_init_fails) ex_sys 1 ex_mem_blank).rot = none ∧
      (rot_init (ex_backends ex_caps_init_ok) ex_sys 1 ex_mem_blank).rot = some 1 :=
  ⟨(rot_init_no_half_constructed (ex_backends ex_caps) ex_sys 2 ex_mem_blank).1 (by decide),
    (rot_init_no_half_constructed (ex_backends ex_caps_init_fails) ex_sys 1 ex_mem_blank).2.1
      100 1 (fun _ m => (-3, m)) (by decide) rfl rfl (by decide),
    ((rot_init_no_half_constructed (ex_backends ex_caps_init_ok) ex_sys 1 ex_mem_blank).2.2
      1).2 ⟨100, by decide, rfl, Or.inr ⟨_, rfl, by decide⟩⟩⟩

/-- C11. Create then destroy without open: for a handle that has its descriptor
and is closed, as `rot_init` returns it and as it stays until it is opened,
`rot_cleanup` returns `RIG_OK`; the only calls it makes are the cleanup hook,
once, when the descriptor has one, and `free`; it calls no close hook and
releases no transport, and the memory after it, the list of opened handles
included, is the one the cleanup hook leaves (the memory before the call when
there is no hook). -/
theorem cleanup_without_open (B : Backends) (r cp : Nat) (m : Mem)
    (hcaps : (m.rots r).caps = some cp) (hclosed : ¬ is_open m r) :
    ((B.caps_at cp).rot_cleanup = none →
        rot_cleanup B (some r) m = ⟨RIG_OK, m, [Event.free r]⟩) ∧
      (∀ hook, (B.caps_at cp).rot_cleanup = some hook →
        rot_cleanup B (some r) m
          = ⟨RIG_OK, (hook r m).2, [Event.backend_cleanup r, Event.free r]⟩) := by
  rw [rot_cleanup_of_closed B r cp m hcaps hclosed]
  constructor
  · intro hn
    simp [rot_cleanup_hook, hcaps, hn]
  · intro hook hh
    simp [rot_cleanup_hook, hcaps, hh]

/-- C11 on the handle that `rot_init` creates at address 1 for a model with a
cleanup hook: the list of opened handles stays empty. -/
theorem cleanup_without_open_witness :
    (rot_init (ex_backends ex_caps_hooks) ex_sys 1 ex_mem_blank).rot = some 1 ∧
      rot_cleanup (ex_backends ex_caps_hooks) (some 1) ex_mem_created
        = ⟨RIG_OK, ex_mem_created.set_state 1 (fun s => { s with priv := none }),
            [Event.backend_cleanup 1, Event.free 1]⟩ ∧
      (rot_cleanup (ex_backends ex_caps_hooks) (some 1) ex_mem_created).mem.opened_rot_list
        = [] :=
  ⟨by decide,
    (cleanup_without_open (ex_backends ex_caps_hooks) 1 100 ex_mem_created (by decide)
      (by decide)).2 _ rfl,
    by decide⟩

/-- C12 fails on the code as stated, in three ways.  On the open device-file
handle that `rot_open` produces (descriptor 4, no stream) the forced close
passes a null stream to `fclose` and `rot_cleanup` does not return.  With a
cleanup hook that puts the handle into the list, and with a handle listed
twice, `rot_cleanup` returns `RIG_OK` and the handle is still in the list. -/
theorem cleanup_claim_fails :
    (is_open ex_mem_device_hooks_opened 1 ∧
      Event.fclose none ∈ (rot_cleanup (ex_backends ex_caps_device_hooks) (some 1)
        ex_mem_device_hooks_opened).trace ∧
      ¬ (rot_cleanup (ex_backends ex_caps_device_hooks) (some 1)
        ex_mem_device_hooks_opened).returns) ∧
    (is_open ex_mem_open 1 ∧
      (rot_cleanup (ex_backends ex_caps_cleanup_relist) (some 1) ex_mem_open).ret = RIG_OK ∧
      1 ∈ (rot_cleanup (ex_backends ex_caps_cleanup_relist) (some 1)
        ex_mem_open).mem.opened_rot_list) ∧
    (is_open ex_mem_listed_twice 1 ∧
      (rot_cleanup (ex_backends ex_caps_hooks) (some 1) ex_mem_listed_twice).ret = RIG_OK ∧
      1 ∈ (rot_cleanup (ex_backends ex_caps_hooks) (some 1)
        ex_mem_listed_twice).mem.opened_rot_list) := by
  unfold ex_mem_device_hooks_opened
  refine ⟨⟨?_, ?_, ?_⟩, ⟨?_, ?_, ?_⟩, ?_, ?_, ?_⟩
  all_goals decide

/-- C12, amended. Destroy forces a close: take an open handle that occurs at
most once in the list; let the close hook, if any, leave the list and the
handle's descriptor reference alone and the cleanup hook, if any, leave the
list alone; and let the port be releasable after the close hook (descriptor
-1, or a stream, so that `fclose` is not called on a null stream).  Then
`rot_cleanup` returns, with `RIG_OK`, whatever the close hook and the cleanup
hook return.  Its calls are, in this order: the close hook if present; the
release of the descriptor if that is not -1; the cleanup hook if present; and
`free`.  Afterwards the handle is not in the list of opened handles and the
other entries are there in their former order. -/
theorem cleanup_forces_close (B : Backends) (r cp : Nat) (m : Mem)
    (hcaps : (m.rots r).caps = some cp) (ho : is_open m r)
    (honce : m.opened_rot_list.count r ≤ 1)
    (hclose : ∀ f, (B.caps_at cp).rot_close = some f →
      (f r m).2.opened_rot_list = m.opened_rot_list ∧ ((f r m).2.rots r).caps = some cp)
    (hclean : ∀ f, (B.caps_at cp).rot_cleanup = some f →
      ∀ n, (f r n).2.opened_rot_list = n.opened_rot_list)
    (hrel : ((rot_close_hook (B.caps_at cp) r m).1.rots r).state.rotport.releasable) :
    (rot_cleanup B (some r) m).returns ∧
      (rot_cleanup B (some r) m).ret = RIG_OK ∧
      (rot_cleanup B (some r) m).trace =
        rot_close_hook_calls B cp r ++
          (release_calls ((rot_close_hook (B.caps_at cp) r m).1.rots r).state.rotport ++
            (rot_cleanup_hook_calls B cp r ++ [Event.free r])) ∧
      r ∉ (rot_cleanup B (some r) m).mem.opened_rot_list ∧
      (rot_cleanup B (some r) m).mem.opened_rot_list
        = m.opened_rot_list.filter (fun h => decide (h ≠ r)) := by
  have hm1 : (rot_close_hook (B.caps_at cp) r m).1.opened_rot_list = m.opened_rot_list ∧
      ((rot_close_hook (B.caps_at cp) r m).1.rots r).caps = some cp := by
    unfold rot_close_hook
    split
    · next f hf => exact hclose f hf
    · exact ⟨rfl, hcaps⟩
  have hcl := rot_close_of_open B r cp m hcaps ho
  have hcaps4 : ((rot_close B (some r) m).mem.rots r).caps = some cp := by
    rw [hcl]
    simp only
    rw [set_state_caps, remove_rots, rot_close_port_caps]
    exact hm1.2
  have hlist4 : (rot_close B (some r) m).mem.opened_rot_list = m.opened_rot_list.erase r := by
    rw [hcl]
    simp only
    rw [(unlink_close_fields r _).2.2, hm1.1]
  have hk : (rot_cleanup_hook B r (rot_close B (some r) m).mem).1.opened_rot_list
        = m.opened_rot_list.erase r ∧
      (rot_cleanup_hook B r (rot_close B (some r) m).mem).2 = rot_cleanup_hook_calls B cp r := by
    unfold rot_cleanup_hook rot_cleanup_hook_calls
    rw [hcaps4]
    simp only
    split
    · next f hf => exact ⟨by rw [hclean f hf, hlist4], rfl⟩
    · exact ⟨hlist4, rfl⟩
  have hct : (rot_close B (some r) m).trace =
      rot_close_hook_calls B cp r ++
        release_calls ((rot_close_hook (B.caps_at cp) r m).1.rots r).state.rotport := by
    rw [hcl]
    simp only
    rw [rot_close_port_calls r _ hrel]
    unfold rot_close_hook rot_close_hook_calls
    split <;> rfl
  have hcu := rot_cleanup_of_open B r cp m hcaps ho
  have ht : (rot_cleanup B (some r) m).trace =
      rot_close_hook_calls B cp r ++
        (release_calls ((rot_close_hook (B.caps_at cp) r m).1.rots r).state.rotport ++
          (rot_cleanup_hook_calls B cp r ++ [Event.free r])) := by
    rw [hcu]
    simp only
    rw [hk.2, hct]
    simp only [List.append_assoc]
  refine ⟨?_, by rw [hcu], ht, ?_, ?_⟩
  · unfold Out.returns
    rw [ht]
    simp only [List.mem_append, List.mem_cons, reduceCtorEq, List.mem_singleton, or_false,
      not_or]
    refine ⟨?_, release_calls_no_fclose _, ?_⟩
    · unfold rot_close_hook_calls
      split <;> simp
    · unfold rot_cleanup_hook_calls
      split <;> simp
  · rw [hcu]
    simp only
    rw [hk.1]
    exact not_mem_erase_of_count_le_one r _ honce
  · rw [hcu]
    simp only
    rw [hk.1]
    exact erase_eq_filter_of_count_le_one r _ honce

/-- C12, amended, on handle 2 of three open serial handles listed 3, 2, 1, each
with descriptor 5 and stream 9, with a close hook that returns `-5`: the
descriptor is released between the two hooks, and the list becomes 3, 1. -/
theorem cleanup_forces_close_witness :
    (rot_cleanup (ex_backends ex_caps_serial_hooks) (some 2) ex_mem_three_serial_open).returns ∧
      (rot_cleanup (ex_backends ex_caps_serial_hooks) (some 2) ex_mem_three_serial_open).ret
        = RIG_OK ∧
      (rot_cleanup (ex_backends ex_caps_serial_hooks) (some 2) ex_mem_three_serial_open).trace
        = [Event.backend_close 2, Event.close 5, Event.backend_cleanup 2, Event.free 2] ∧
      ex_mem_three_serial_open.opened_rot_list = [3, 2, 1] ∧
      (rot_cleanup (ex_backends ex_caps_serial_hooks) (some 2)
        ex_mem_three_serial_open).mem.opened_rot_list = [3, 1] :=
  ⟨(cleanup_forces_close (ex_backends ex_caps_serial_hooks) 2 100 ex_mem_three_serial_open
      (by decide) (by decide) (by decide)
      (fun f hf => by
        simp only [ex_backends, ex_caps_serial_hooks, ex_caps_hooks, Option.some.injEq] at hf
        subst hf
        exact ⟨rfl, by decide⟩)
      (fun f hf n => by
        simp only [ex_backends, ex_caps_serial_hooks, ex_caps_hooks, Option.some.injEq] at hf
        subst hf
        rfl)
      (by decide)).1,
    by decide, by decide, by decide, by decide⟩

/-- C13. Routing of configuration tokens, for a handle with a descriptor.  When
the token is of frontend scope, `rot_set_conf` and `rot_get_conf` (with a
non-null buffer) return the result of the frontend handler, which is the only
call made, whether or not the descriptor has a configuration hook.  When the
token is of backend scope they return `-RIG_ENAVAIL` with no call at all if the
descriptor lacks the hook, and otherwise exactly the hook's result, the hook
being the only call made. -/
theorem conf_token_routing (B : Backends) (F : Frontconf) (r cp : Nat) (token : Int)
    (val buf : String) (m : Mem) (hcaps : (m.rots r).caps = some cp) :
    (F.RIG_IS_TOKEN_FRONTEND token = true →
        rot_set_conf B F (some r) token val m
          = ⟨(F.frontrot_set_conf r token val m).1, (F.frontrot_set_conf r token val m).2,
              [Event.frontrot_set_conf r token val]⟩ ∧
        rot_get_conf B F (some r) token (some buf) m
          = ⟨(F.frontrot_get_conf r token buf m).1, (F.frontrot_get_conf r token buf m).2.1,
              [Event.frontrot_get_conf r token],
              some (F.frontrot_get_conf r token buf m).2.2⟩) ∧
      (F.RIG_IS_TOKEN_FRONTEND token = false →
        ((B.caps_at cp).set_conf = none →
          rot_set_conf B F (some r) token val m = ⟨- RIG_ENAVAIL, m, []⟩) ∧
        (∀ hook, (B.caps_at cp).set_conf = some hook →
          rot_set_conf B F (some r) token val m
            = ⟨(hook r token val m).1, (hook r token val m).2,
                [Event.backend_set_conf r token val]⟩) ∧
        ((B.caps_at cp).get_conf = none →
          rot_get_conf B F (some r) token (some buf) m
            = ⟨- RIG_ENAVAIL, m, [], some buf⟩) ∧
        (∀ hook, (B.caps_at cp).get_conf = some hook →
          rot_get_conf B F (some r) token (some buf) m
            = ⟨(hook r token buf m).1, (hook r token buf m).2.1,
                [Event.backend_get_conf r token], some (hook r token buf m).2.2⟩)) := by
  refine ⟨fun hf => ⟨?_, ?_⟩, fun hb => ⟨fun hn => ?_, fun hook hh => ?_, fun hn => ?_,
    fun hook hh => ?_⟩⟩
  · simp [rot_set_conf, hcaps, hf]
  · simp [rot_get_conf, hcaps, hf]
  · simp [rot_set_conf, hcaps, hb, hn]
  · simp [rot_set_conf, hcaps, hb, hh]
  · simp [rot_get_conf, hcaps, hb, hn]
  · simp [rot_get_conf, hcaps, hb, hh]

set_option maxRecDepth 4000 in
/-- C13 on handle 1: the frontend token `2^30 + 1` goes to the frontend handler
although the descriptor `ex_caps_conf` has hooks; the backend token 5 goes to
the hooks of `ex_caps_conf` and meets `-RIG_ENAVAIL` with `ex_caps`. -/
theorem conf_token_routing_witness :
    (rot_set_conf (ex_backends ex_caps_conf) ex_frontconf (some 1) 1073741825 "/dev/ttyS0"
        (ex_mem_of ex_caps_conf)).trace = [Event.frontrot_set_conf 1 1073741825 "/dev/ttyS0"] ∧
      (rot_get_conf (ex_backends ex_caps_conf) ex_frontconf (some 1) 1073741825 (some "")
        (ex_mem_of ex_caps_conf)).val = some "/dev/rotator" ∧
      (rot_set_conf (ex_backends ex_caps_conf) ex_frontconf (some 1) 5 "x"
        (ex_mem_of ex_caps_conf)).ret = -9 ∧
      (rot_get_conf (ex_backends ex_caps_conf) ex_frontconf (some 1) 5 (some "")
        (ex_mem_of ex_caps_conf)).val = some "backend" ∧
      rot_set_conf (ex_backends ex_caps) ex_frontconf (some 1) 5 "x" ex_mem
        = ⟨- RIG_ENAVAIL, ex_mem, []⟩ :=
  ⟨by rw [((conf_token_routing (ex_backends ex_caps_conf) ex_frontconf 1 100 1073741825
        "/dev/ttyS0" "" (ex_mem_of ex_caps_conf) rfl).1 (by decide)).1],
    by decide, by decide, by decide,
    ((conf_token_routing (ex_backends ex_caps) ex_frontconf 1 100 5 "x" "" ex_mem rfl).2
      (by decide)).1 rfl⟩

/-- C14 fails on the code as stated: handle 1 is not in the empty list of
`ex_mem`, and `remove_opened_rot` returns for it the very code that the frontend
returns for an invalid argument, `-RIG_EINVAL`; so there is no code, different
from `RIG_OK` and from InvalidArgument, that it returns. -/
theorem remove_absent_code_not_distinct :
    1 ∉ ex_mem.opened_rot_list ∧
      (rot_set_position (ex_backends ex_caps) none 0 0 ex_mem).ret = InvalidArgument ∧
      ¬ ∃ NotFound : Int, NotFound ≠ RIG_OK ∧ NotFound ≠ InvalidArgument ∧
        (remove_opened_rot 1 ex_mem).1 = NotFound := by
  refine ⟨by decide, by decide, ?_⟩
  rintro ⟨c, _, h2, h3⟩
  exact h2 (h3.symm.trans (by decide))

/-- C14, amended. Unregistering an absent handle: for every list of opened
handles and every handle that does not occur in it, `remove_opened_rot` returns
`-RIG_EINVAL`, a code different from `RIG_OK` and the same as the one for an
invalid argument, and leaves the memory, with the list, unchanged. -/
theorem remove_absent_einval (rot : Nat) (m : Mem) (habsent : rot ∉ m.opened_rot_list) :
    remove_opened_rot rot m = (- RIG_EINVAL, m) ∧ (- RIG_EINVAL) ≠ RIG_OK ∧
      (- RIG_EINVAL) = InvalidArgument := by
  refine ⟨?_, by decide, rfl⟩
  unfold remove_opened_rot
  rw [remove_loop_eq]
  simp [habsent]

/-- C14, amended, on handle 4 and the list 3, 2, 1. -/
theorem remove_absent_einval_witness :
    remove_opened_rot 4 ex_mem_three_open = (- RIG_EINVAL, ex_mem_three_open) ∧
      (- RIG_EINVAL) ≠ RIG_OK ∧ (- RIG_EINVAL) = InvalidArgument :=
  remove_absent_einval 4 ex_mem_three_open (by decide)

/-- C16. Position operations are pure delegation: when the descriptor has
`set_position`, `rot_set_position` calls that hook once, with the same handle,
azimuth and elevation, whatever their values and the handle's bounds, makes no
other call, and returns the hook's result and memory unchanged; when the
descriptor has `get_position`, `rot_get_position` with non-null outputs does
the same and hands on the values the hook stored in the outputs. -/
theorem position_delegation (B : Backends) (r cp : Nat) (m : Mem) (az : azimuth_t)
    (el : elevation_t) (hcaps : (m.rots r).caps = some cp) :
    (∀ hook, (B.caps_at cp).set_position = some hook →
        rot_set_position B (some r) az el m
          = ⟨(hook r az el m).1, (hook r az el m).2, [Event.backend_set_position r az el]⟩) ∧
      (∀ hook, (B.caps_at cp).get_position = some hook →
        rot_get_position B (some r) (some az) (some el) m
          = ⟨(hook r az el m).1, (hook r az el m).2.1, [Event.backend_get_position r],
              some (hook r az el m).2.2.1, some (hook r az el m).2.2.2⟩) := by
  constructor
  · intro hook hh
    simp [rot_set_position, hcaps, hh]
  · intro hook hh
    simp [rot_get_position, hcaps, hh]

/-- C16 on handle 1 with bounds 0..360 and 0..90: the target (720, -45) lies
outside them and reaches the hook all the same. -/
theorem position_delegation_witness :
    ((ex_mem_of ex_caps_position).rots 1).state.min_az = 0 ∧
      ex_caps_position.max_az = 360 ∧
      (rot_set_position (ex_backends ex_caps_position) (some 1) 720 (-45)
        (ex_mem_of ex_caps_position)).trace = [Event.backend_set_position 1 720 (-45)] ∧
      (rot_set_position (ex_backends ex_caps_position) (some 1) 720 (-45)
        (ex_mem_of ex_caps_position)).ret = 0 ∧
      (rot_get_position (ex_backends ex_caps_position) (some 1) (some 0) (some 0)
        (rot_set_position (ex_backends ex_caps_position) (some 1) 720 (-45)
          (ex_mem_of ex_caps_position)).mem).azimuth = some 720 :=
  ⟨by decide, by decide,
    by rw [(position_delegation (ex_backends ex_caps_position) 1 100
      (ex_mem_of ex_caps_position) 720 (-45) rfl).1 _ rfl],
    by rw [(position_delegation (ex_backends ex_caps_position) 1 100
      (ex_mem_of ex_caps_position) 720 (-45) rfl).1 _ rfl],
    by decide⟩

/-- C17 fails on the code as stated: when `malloc` fails, `add_opened_rot`
returns `-RIG_ENOMEM` without adding the handle, and `remove_opened_rot` after
it does not return `RIG_OK` on a list without the handle (here the empty
list). -/
theorem remove_after_failed_add :
    ex_mem.opened_rot_list = [] ∧
      (add_opened_rot ex_sys_nomem 1 ex_mem).1 = - RIG_ENOMEM ∧
      ¬ ((remove_opened_rot 1 (add_opened_rot ex_sys_nomem 1 ex_mem).2).1 = RIG_OK ∧
        (remove_opened_rot 1 (add_opened_rot ex_sys_nomem 1 ex_mem).2).2.opened_rot_list
          = ex_mem.opened_rot_list) := by
  refine ⟨rfl, by decide, ?_⟩
  rintro ⟨h, _⟩
  revert h
  decide

/-- C17, amended. Register and unregister on the list: when the insertion
succeeds (`malloc` does not fail), `add_opened_rot` puts the handle at the head
and `remove_opened_rot` of the same handle after it returns `RIG_OK` and
restores exactly the memory, hence the list, from before; and whenever a handle
occurs in the list, `remove_opened_rot` returns `RIG_OK`, leaves the handles'
contents alone, and removes exactly the first occurrence: all other entries
stay, in their order. -/
theorem add_then_remove (sys : Sys) (h : Nat) (m : Mem) :
    (sys.malloc_ok = true →
        (add_opened_rot sys h m).1 = RIG_OK ∧
        (add_opened_rot sys h m).2.opened_rot_list = h :: m.opened_rot_list ∧
        remove_opened_rot h (add_opened_rot sys h m).2 = (RIG_OK, m)) ∧
      (h ∈ m.opened_rot_list →
        (remove_opened_rot h m).1 = RIG_OK ∧
        (remove_opened_rot h m).2.rots = m.rots ∧
        ∃ pre post, m.opened_rot_list = pre ++ h :: post ∧ h ∉ pre ∧
          (remove_opened_rot h m).2.opened_rot_list = pre ++ post) := by
  constructor
  · intro hs
    refine ⟨by simp [add_opened_rot, hs], by simp [add_opened_rot, hs], ?_⟩
    simp [add_opened_rot, hs, remove_opened_rot, remove_opened_rot_loop]
  · intro hm
    refine ⟨?_, remove_rots h m, ?_⟩
    · unfold remove_opened_rot
      rw [remove_loop_eq]
      simp [hm]
    · obtain ⟨pre, post, hpre, hl, he⟩ := List.exists_erase_eq hm
      exact ⟨pre, post, hl, hpre, by rw [remove_list, he]⟩

/-- C17, amended, on the list 3, 2, 1: adding 2 again and removing it gives the
list back, and removing 2 gives 3, 1. -/
theorem add_then_remove_witness :
    remove_opened_rot 2 (add_opened_rot ex_sys 2 ex_mem_three_open).2
        = (RIG_OK, ex_mem_three_open) ∧
      (remove_opened_rot 2 ex_mem_three_open).2.opened_rot_list = [3, 1] :=
  ⟨((add_then_remove ex_sys 2 ex_mem_three_open).1 rfl).2.2, by decide⟩

/-- C15 fails on the code as stated, in two ways.  Handle 1 of `ex_mem` is
closed, needs no port and has no open hook, yet with `malloc` failing in
`add_opened_rot` the call `rot_open` returns `RIG_OK` and marks the handle open
without placing it in the list of opened handles.  And with `malloc`
succeeding and an open hook that clears `comm_state` and returns 0, `rot_open`
returns `RIG_OK` with the handle listed but not open. -/
theorem open_ok_without_registration :
    (¬ is_open ex_mem 1 ∧
      (rot_open_port ex_sys_nomem 1 (ex_mem.set_port 1 (fun p => { p with fd := -1 }))).1
        = none ∧
      ex_caps.rot_open = none ∧
      ¬ ((rot_open (ex_backends ex_caps) ex_sys_nomem (some 1) ex_mem).ret = RIG_OK ∧
        is_open (rot_open (ex_backends ex_caps) ex_sys_nomem (some 1) ex_mem).mem 1 ∧
        (rot_open (ex_backends ex_caps) ex_sys_nomem (some 1) ex_mem).mem.opened_rot_list.head?
          = some 1)) ∧
    (¬ is_open (ex_mem_of ex_caps_forget) 1 ∧
      (rot_open (ex_backends ex_caps_forget) ex_sys (some 1) (ex_mem_of ex_caps_forget)).ret
        = RIG_OK ∧
      (rot_open (ex_backends ex_caps_forget) ex_sys (some 1)
        (ex_mem_of ex_caps_forget)).mem.opened_rot_list = [1] ∧
      ¬ is_open (rot_open (ex_backends ex_caps_forget) ex_sys (some 1)
        (ex_mem_of ex_caps_forget)).mem 1) := by
  refine ⟨⟨by decide, by decide, rfl, ?_⟩, by decide, by decide, by decide, by decide⟩
  rintro ⟨_, _, h⟩
  revert h
  decide

/-- C15, amended. The priming position query is best-effort: take a closed
handle whose port opens and whose open hook is absent or returns `RIG_OK`, with
the insertion into the list succeeding (`malloc` does not fail) and hooks that
leave list and statuses alone.  Then `rot_open` returns `RIG_OK`, the handle is
open and first in the list, followed by the former list.  After the switch and
the open hook, `rot_open` makes one call of `rot_get_position` and takes the
memory that call leaves; that call reaches the backend once when the
descriptor has `get_position` and not at all otherwise; its result, whatever
it is, does not enter the result of `rot_open`, and `rot_open` returns. -/
theorem open_primes_position_once (B : Backends) (hB : hooks_keep B) (sys : Sys) (r cp : Nat)
    (m : Mem) (hcaps : (m.rots r).caps = some cp) (hclosed : ¬ is_open m r)
    (hport : (rot_open_port sys r (m.set_port r (fun p => { p with fd := -1 }))).1 = none)
    (hok : ∀ hook, (B.caps_at cp).rot_open = some hook →
      (hook r (rot_open_hook_input sys r m)).1 = RIG_OK)
    (hmalloc : sys.malloc_ok = true) :
    (rot_open B sys (some r) m).ret = RIG_OK ∧
      is_open (rot_open B sys (some r) m).mem r ∧
      (rot_open B sys (some r) m).mem.opened_rot_list = r :: m.opened_rot_list ∧
      (rot_open B sys (some r) m).mem =
        (rot_get_position B (some r) (some 0) (some 0)
          (rot_open_query_input B sys cp r m)).mem ∧
      (rot_open B sys (some r) m).trace =
        (rot_open_port sys r (m.set_port r (fun p => { p with fd := -1 }))).2.2 ++
          (rot_open_hook_calls B cp r ++
            (rot_get_position B (some r) (some 0) (some 0)
              (rot_open_query_input B sys cp r m)).trace) ∧
      ((rot_get_position B (some r) (some 0) (some 0)
          (rot_open_query_input B sys cp r m)).trace = [] ∨
        (rot_get_position B (some r) (some 0) (some 0)
          (rot_open_query_input B sys cp r m)).trace = [Event.backend_get_position r]) ∧
      (∀ cq g, ((rot_open_query_input B sys cp r m).rots r).caps = some cq →
        (B.caps_at cq).get_position = some g →
        (rot_get_position B (some r) (some 0) (some 0)
          (rot_open_query_input B sys cp r m)).trace = [Event.backend_get_position r]) ∧
      (rot_open B sys (some r) m).returns := by
  have hq : keeps (rot_open_hook_input sys r m) (rot_open_query_input B sys cp r m) := by
    unfold rot_open_query_input
    split
    · next hook hh => exact (hB cp).1 hook hh r _
    · exact keeps_refl _
  have hk := keeps_trans hq
    (keeps_rot_get_position B hB (some r) (some 0) (some 0) (rot_open_query_input B sys cp r m))
  rw [rot_open_of_success B sys r cp m hcaps hclosed hport hok]
  refine ⟨rfl, ?_, ?_, rfl, rfl, (rot_get_position_trace_cases B r 0 0 _).1,
    (rot_get_position_trace_cases B r 0 0 _).2, ?_⟩
  · exact (hk.2 r).2 (is_open_hook_input sys r m)
  · simp only
    rw [hk.1]
    exact rot_open_hook_input_list sys hmalloc r m
  · unfold Out.returns
    simp only [List.mem_append, not_or]
    refine ⟨rot_open_port_no_fclose sys r _, ?_, rot_get_position_no_fclose B _ _ _ _⟩
    unfold rot_open_hook_calls
    split <;> simp

/-- C15, amended, on handle 1 with a position query that fails with `-8`:
`rot_open` returns `RIG_OK` after one query, and handle 1 is listed first. -/
theorem open_primes_position_once_witness :
    (rot_get_position (ex_backends ex_caps_query_fails) (some 1) (some 0) (some 0)
        (rot_open_query_input (ex_backends ex_caps_query_fails) ex_sys 100 1
          (ex_mem_of ex_caps_query_fails))).ret = -8 ∧
      (rot_open (ex_backends ex_caps_query_fails) ex_sys (some 1)
        (ex_mem_of ex_caps_query_fails)).ret = RIG_OK ∧
      (rot_open (ex_backends ex_caps_query_fails) ex_sys (some 1)
        (ex_mem_of ex_caps_query_fails)).mem.opened_rot_list = [1] ∧
      (rot_open (ex_backends ex_caps_query_fails) ex_sys (some 1)
        (ex_mem_of ex_caps_query_fails)).trace
          = [Event.backend_open 1, Event.backend_get_position 1] :=
  ⟨by decide,
    (open_primes_position_once (ex_backends ex_caps_query_fails)
      (fun _ => ⟨fun f hf r m => by
          simp only [ex_backends, ex_caps_query_fails, Option.some.injEq] at hf
          subst hf
          exact keeps_refl m,
        fun f hf => by simp [ex_backends, ex_caps_query_fails, ex_caps] at hf,
        fun f hf => by simp [ex_backends, ex_caps_query_fails, ex_caps] at hf,
        fun f hf r az el m => by
          simp only [ex_backends, ex_caps_query_fails, Option.some.injEq] at hf
          subst hf
          exact keeps_refl m⟩)
      ex_sys 1 100 (ex_mem_of ex_caps_query_fails) rfl (by decide) rfl
      (fun hook hh => by
        simp only [ex_backends, ex_caps_query_fails, Option.some.injEq] at hh
        subst hh
        rfl)
      rfl).1,
    by decide, by decide⟩

/-- C18 fails on the code as stated, in three ways.  With `malloc` failing in
`add_opened_rot`, `rot_open` on the closed handle 1 still calls the open hook,
and the hook does not find the handle in the list of opened handles: the
probing hook of `ex_caps_probe` answers `-7`, which `rot_open` returns, while
with `malloc` succeeding it answers 0 and `rot_open` returns `RIG_OK`.  With an
open hook that clears `comm_state` before it fails, the rollback does not call
the close hook that the descriptor has.  And on a device-file handle the
rollback passes a null stream to `fclose`, so `rot_open` does not return and
the handle is never taken out of the list. -/
theorem open_hook_sees_unregistered_handle :
    (¬ is_open (ex_mem_of ex_caps_probe) 1 ∧
      Event.backend_open 1 ∈
        (rot_open (ex_backends ex_caps_probe) ex_sys_nomem (some 1)
          (ex_mem_of ex_caps_probe)).trace ∧
      (rot_open (ex_backends ex_caps_probe) ex_sys_nomem (some 1)
        (ex_mem_of ex_caps_probe)).ret = -7 ∧
      (rot_open (ex_backends ex_caps_probe) ex_sys (some 1)
        (ex_mem_of ex_caps_probe)).ret = RIG_OK ∧
      ¬ (is_open (rot_open_hook_input ex_sys_nomem 1 (ex_mem_of ex_caps_probe)) 1 ∧
        (rot_open_hook_input ex_sys_nomem 1 (ex_mem_of ex_caps_probe)).opened_rot_list.head?
          = some 1)) ∧
    (¬ is_open (ex_mem_of ex_caps_forget_fails) 1 ∧
      (ex_caps_forget_fails.rot_close).isSome = true ∧
      (rot_open (ex_backends ex_caps_forget_fails) ex_sys (some 1)
        (ex_mem_of ex_caps_forget_fails)).ret = -8 ∧
      (rot_open (ex_backends ex_caps_forget_fails) ex_sys (some 1)
        (ex_mem_of ex_caps_forget_fails)).trace.count (Event.backend_close 1) = 0) ∧
    (¬ is_open (ex_mem_of ex_caps_device_fails) 1 ∧
      (ex_caps_device_fails.rot_close).isSome = true ∧
      ¬ (rot_open (ex_backends ex_caps_device_fails) ex_sys (some 1)
        (ex_mem_of ex_caps_device_fails)).returns) := by
  refine ⟨⟨by decide, by decide, by decide, by decide, ?_⟩, ⟨?_, ?_, ?_, ?_⟩, ?_, ?_, ?_⟩
  · rintro ⟨_, h⟩
    revert h
    decide
  all_goals decide

/-- C18, amended. Hook ordering in `rot_open`, for a closed handle whose port
opens, whose descriptor has an open hook, and with the insertion into the list
succeeding (`malloc` does not fail).  The open hook is called on a memory in
which the handle is open and at the head of the list; when it returns `RIG_OK`
it is the first backend call, after the port was opened, and the position
query follows.  When the open hook fails, having left the handle open, the list
as it was and the handle's descriptor reference in place, and the port is
releasable when the rollback comes to release it (descriptor -1, or a stream,
so that `fclose` is not called on a null stream), then `rot_open` returns the
hook's code, and its calls are, in this order: the port's, the open hook, the
close hook if the descriptor has one, and the release of the descriptor if
that is not -1.  So a close hook that is present is called exactly once, after
the failed open hook, on a memory in which the handle is still listed, and the
handle is taken out of the list left by the close hook after that. -/
theorem open_hook_ordering (B : Backends) (sys : Sys) (r cp : Nat) (m : Mem)
    (hook : Nat → Mem → Int × Mem) (hcaps : (m.rots r).caps = some cp)
    (hclosed : ¬ is_open m r)
    (hport : (rot_open_port sys r (m.set_port r (fun p => { p with fd := -1 }))).1 = none)
    (hhook : (B.caps_at cp).rot_open = some hook) (hmalloc : sys.malloc_ok = true) :
    is_open (rot_open_hook_input sys r m) r ∧
      (rot_open_hook_input sys r m).opened_rot_list = r :: m.opened_rot_list ∧
      ((hook r (rot_open_hook_input sys r m)).1 = RIG_OK →
        rot_open B sys (some r) m =
          ⟨RIG_OK,
            (rot_get_position B (some r) (some 0) (some 0)
              (hook r (rot_open_hook_input sys r m)).2).mem,
            (rot_open_port sys r (m.set_port r (fun p => { p with fd := -1 }))).2.2 ++
              Event.backend_open r ::
                (rot_get_position B (some r) (some 0) (some 0)
                  (hook r (rot_open_hook_input sys r m)).2).trace⟩) ∧
      ((hook r (rot_open_hook_input sys r m)).1 ≠ RIG_OK →
        is_open (hook r (rot_open_hook_input sys r m)).2 r →
        (hook r (rot_open_hook_input sys r m)).2.opened_rot_list
          = (rot_open_hook_input sys r m).opened_rot_list →
        ((hook r (rot_open_hook_input sys r m)).2.rots r).caps = some cp →
        (rot_open_rollback_port B sys cp r hook m).releasable →
        (rot_open B sys (some r) m).returns ∧
          (rot_open B sys (some r) m).ret = (hook r (rot_open_hook_input sys r m)).1 ∧
          (rot_open B sys (some r) m).trace =
            (rot_open_port sys r (m.set_port r (fun p => { p with fd := -1 }))).2.2 ++
              Event.backend_open r ::
                (rot_close_hook_calls B cp r ++
                  release_calls (rot_open_rollback_port B sys cp r hook m)) ∧
          (rot_open B sys (some r) m).trace.count (Event.backend_close r)
            = (rot_close_hook_calls B cp r).length ∧
          ∀ chook, (B.caps_at cp).rot_close = some chook →
            rot_close_hook_calls B cp r = [Event.backend_close r] ∧
            r ∈ (hook r (rot_open_hook_input sys r m)).2.opened_rot_list ∧
            (rot_open B sys (some r) m).mem.opened_rot_list =
              (chook r (hook r (rot_open_hook_input sys r m)).2).2.opened_rot_list.erase r) := by
  have hl := rot_open_hook_input_list sys hmalloc r m
  refine ⟨is_open_hook_input sys r m, hl,
    fun hok => rot_open_of_hook_ok B sys r cp m hook hcaps hclosed hport hhook hok,
    fun he hko hkl hkc hrel => ?_⟩
  have hopen := rot_open_of_hook_error B sys r cp m hook hcaps hclosed hport hhook he
  have hcl := rot_close_of_open B r cp _ hkc hko
  have hrel2 : ((rot_close_hook (B.caps_at cp) r
      (hook r (rot_open_hook_input sys r m)).2).1.rots r).state.rotport.releasable := hrel
  have hct : (rot_close B (some r) (hook r (rot_open_hook_input sys r m)).2).trace =
      rot_close_hook_calls B cp r ++
        release_calls (rot_open_rollback_port B sys cp r hook m) := by
    rw [hcl]
    simp only
    rw [rot_close_port_calls r _ hrel2]
    unfold rot_close_hook rot_close_hook_calls rot_open_rollback_port rot_close_hook
    split <;> rfl
  have ht : (rot_open B sys (some r) m).trace =
      (rot_open_port sys r (m.set_port r (fun p => { p with fd := -1 }))).2.2 ++
        Event.backend_open r ::
          (rot_close_hook_calls B cp r ++
            release_calls (rot_open_rollback_port B sys cp r hook m)) := by
    rw [hopen]
    simp only
    rw [hct]
  refine ⟨?_, by rw [hopen], ht, ?_, fun chook hch => ⟨?_, ?_, ?_⟩⟩
  · unfold Out.returns
    rw [ht]
    simp only [List.mem_append, List.mem_cons, reduceCtorEq, false_or, not_or]
    refine ⟨rot_open_port_no_fclose sys r _, ?_, release_calls_no_fclose _⟩
    unfold rot_close_hook_calls
    split <;> simp
  · rw [ht, List.count_append, rot_open_port_no_backend_close, List.count_cons,
      List.count_append, release_calls_no_backend_close]
    unfold rot_close_hook_calls
    split <;> simp
  · simp [rot_close_hook_calls, hch]
  · rw [hkl, hl]
    exact List.mem_cons_self _ _
  · rw [hopen, hcl]
    simp only
    rw [(unlink_close_fields r _).2.2]
    simp [rot_close_hook, hch]

/-- C18, amended, on a serial handle whose open hook fails with `-8`: the calls
are `serial_open`, the open hook, the close hook once, and the release of
descriptor 5; the list is empty again afterwards. -/
theorem open_hook_ordering_witness :
    (rot_open_hook_input ex_sys 1 ex_mem_serial).opened_rot_list = [1] ∧
      (rot_open (ex_backends ex_caps_serial_fails) ex_sys (some 1) ex_mem_serial).returns ∧
      (rot_open (ex_backends ex_caps_serial_fails) ex_sys (some 1) ex_mem_serial).ret = -8 ∧
      (rot_open (ex_backends ex_caps_serial_fails) ex_sys (some 1) ex_mem_serial).trace
        = [Event.serial_open 1, Event.backend_open 1, Event.backend_close 1, Event.close 5] ∧
      (rot_open (ex_backends ex_caps_serial_fails) ex_sys (some 1)
        ex_mem_serial).mem.opened_rot_list = [] :=
  ⟨(open_hook_ordering (ex_backends ex_caps_serial_fails) ex_sys 1 100 ex_mem_serial
      (fun _ m => (-8, m)) rfl (by decide) rfl rfl rfl).2.1,
    ((open_hook_ordering (ex_backends ex_caps_serial_fails) ex_sys 1 100 ex_mem_serial
      (fun _ m => (-8, m)) rfl (by decide) rfl rfl rfl).2.2.2 (by decide) (by decide) rfl rfl
      (by decide)).1,
    ((open_hook_ordering (ex_backends ex_caps_serial_fails) ex_sys 1 100 ex_mem_serial
      (fun _ m => (-8, m)) rfl (by decide) rfl rfl rfl).2.2.2 (by decide) (by decide) rfl rfl
      (by decide)).2.1,
    by decide, by decide⟩

/-- C19. `rot_open` discards the result of its position query.  Take two
capability registries that differ at most in their `get_position` hooks, these
having the same effect on handle `r` and on the list of opened handles but
returning and storing in the outputs whatever they like.  Then `rot_open` on `r`
gives the same result and the same calls, and afterwards the state of `r` and
the list of opened handles are the same; when the two hooks have the same
effect on the whole memory, so is the whole memory.  The frontend does not
write the queried values into the handle: when the open hook is absent and the
`get_position` hook leaves the memory alone, a successful `rot_open` leaves the
memory as it was when the query was made, and the handle's last known azimuth
and elevation are those from before the call, whatever the hook stored in the
outputs. -/
theorem open_discards_position_result (B1 B2 : Backends) (r : Nat)
    (hsame : same_but_position_outputs_for r B1 B2) (sys : Sys) (m : Mem) :
    (rot_open B1 sys (some r) m).ret = (rot_open B2 sys (some r) m).ret ∧
      (rot_open B1 sys (some r) m).trace = (rot_open B2 sys (some r) m).trace ∧
      ((rot_open B1 sys (some r) m).mem.rots r).state
        = ((rot_open B2 sys (some r) m).mem.rots r).state ∧
      (rot_open B1 sys (some r) m).mem.opened_rot_list
        = (rot_open B2 sys (some r) m).mem.opened_rot_list ∧
      (same_but_position_outputs B1 B2 →
        rot_open B1 sys (some r) m = rot_open B2 sys (some r) m) ∧
      (∀ cp g, (m.rots r).caps = some cp → ¬ is_open m r →
        (rot_open_port sys r (m.set_port r (fun p => { p with fd := -1 }))).1 = none →
        (B1.caps_at cp).rot_open = none → (B1.caps_at cp).get_position = some g →
        (∀ az el n, (g r az el n).2.1 = n) →
        (rot_open B1 sys (some r) m).ret = RIG_OK ∧
          Event.backend_get_position r ∈ (rot_open B1 sys (some r) m).trace ∧
          (rot_open B1 sys (some r) m).mem = rot_open_hook_input sys r m ∧
          ((rot_open B1 sys (some r) m).mem.rots r).state.current_az
            = (m.rots r).state.current_az ∧
          ((rot_open B1 sys (some r) m).mem.rots r).state.current_el
            = (m.rots r).state.current_el) := by
  have hs := rot_open_same B1 B2 r hsame sys m
  refine ⟨hs.1, hs.2.1, by rw [hs.2.2.1], hs.2.2.2,
    fun hall => rot_open_congr B1 B2 hall sys (some r) m, ?_⟩
  intro cp g hcaps hclosed hport hno hg hg2
  have hq : rot_open_query_input B1 sys cp r m = rot_open_hook_input sys r m := by
    simp [rot_open_query_input, hno]
  have hc2 : ((rot_open_hook_input sys r m).rots r).caps = some cp := by
    rw [rot_open_hook_input_caps, hcaps]
  have hgp : rot_get_position B1 (some r) (some 0) (some 0) (rot_open_hook_input sys r m)
      = ⟨(g r 0 0 (rot_open_hook_input sys r m)).1, rot_open_hook_input sys r m,
          [Event.backend_get_position r], some (g r 0 0 (rot_open_hook_input sys r m)).2.2.1,
          some (g r 0 0 (rot_open_hook_input sys r m)).2.2.2⟩ := by
    simp [rot_get_position, hc2, hg, hg2]
  rw [rot_open_of_success B1 sys r cp m hcaps hclosed hport (fun f hf => by
    rw [hno] at hf
    cases hf), hq, hgp]
  refine ⟨rfl, by simp, rfl, (rot_open_hook_input_state sys r m).1,
    (rot_open_hook_input_state sys r m).2⟩

/-- C19 on two descriptors whose position queries answer (10, 20) with result 0
and (300, 80) with result `-8`: `rot_open` on handle 1 gives the same result,
memory and calls, and the last known azimuth stays 0. -/
theorem open_discards_position_result_witness :
    (rot_get_position (ex_backends ex_caps_query_a) (some 1) (some 0) (some 0)
        ex_mem).azimuth = some 10 ∧
      (rot_get_position (ex_backends ex_caps_query_b) (some 1) (some 0) (some 0)
        ex_mem).azimuth = some 300 ∧
      rot_open (ex_backends ex_caps_query_a) ex_sys (some 1) ex_mem
        = rot_open (ex_backends ex_caps_query_b) ex_sys (some 1) ex_mem ∧
      ((rot_open (ex_backends ex_caps_query_a) ex_sys (some 1) ex_mem).mem.rots 1).state.current_az
        = 0 :=
  ⟨by decide, by decide,
    (open_discards_position_result (ex_backends ex_caps_query_a) (ex_backends ex_caps_query_b) 1
      (fun _ => ⟨rfl, rfl, rfl, fun _ _ _ => ⟨rfl, rfl⟩⟩) ex_sys ex_mem).2.2.2.2.1
      (fun _ => ⟨rfl, rfl, rfl, fun _ _ _ _ => rfl⟩),
    by decide⟩

end Hamlib
